import Mathlib

/-!
The rustish `option` library: storage and facade.

A shallow embedding of `option/OptionStorage.hpp` and `option/Option.hpp`.

* An object is a Lean value; a member function takes the receiver and returns
  the receiver as it is after the call next to the C++ return value.  A `const`
  member function cannot write the receiver and returns its value only.
* `char m_buff[sizeof(T)]` is a `Buff T`: `raw` while no `T` lives in the bytes,
  `obj v` while they hold a `T` of value `v`.  Copying or moving a `T` yields a
  `T` of the same value, and `std::move` out of a `T` leaves the bytes as they
  are (the payloads of the test-suite are `int` and `double`).
* `T *` is a `Ptr`; a `T &` to an object outside the containers is the address
  of its referent, and the referents of the reference kinds live outside the
  containers.  A reference into the owned slot (what `get()`, `ref()` and
  `cref()` of the owned kind return) is given by the `T` read through it.
* A read the C++ does not guard (a `T` read out of `raw` bytes, `*nullptr`) is
  undefined behaviour and is returned as a `Fault`.
* A callable is a function of its argument and of an explicit environment `σ`
  (what a lambda captures by reference); it returns its result and the new
  environment.  A callable handed the mutable `T &` of `ref()` also returns the
  value it leaves in the referent.
* `return local;` returns the value of the local.  Temporaries and by-value
  parameters are destroyed once the result is formed; their destructors act on
  objects that are not returned.
-/

namespace option

/-- Undefined behaviour reached by a read or a destructor call that the code does not guard. -/
inductive Fault
  | no_object
  | null_dereference
  deriving DecidableEq, Repr

/-- Address of an object living outside the container. -/
abbrev Addr := Nat

/-- A `T *`. -/
inductive Ptr
  | nullptr
  | addr (a : Addr)
  deriving DecidableEq, Repr

/-- Forming `*p`. -/
def Ptr.deref : Ptr → Except Fault Addr
  | .nullptr => .error .null_dereference
  | .addr a => .ok a

/-- The bytes of `char m_buff[sizeof(T)]` seen as a `T` slot. -/
inductive Buff (T : Type)
  | raw
  | obj (v : T)
  deriving DecidableEq, Repr

/-- Reading the `T` that `*cast(m_buff)` designates. -/
def Buff.read {T : Type} : Buff T → Except Fault T
  | .raw => .error .no_object
  | .obj v => .ok v

/-- The call `cast(m_buff)->~T()`. -/
def Buff.destroy {T : Type} : Buff T → Except Fault (Buff T)
  | .raw => .error .no_object
  | .obj _ => .ok .raw

/-- The tag `enum State { SOME, NONE }`. -/
inductive State
  | SOME
  | NONE
  deriving DecidableEq, Repr

/-- Right-hand side of `*this = other`: the receiver itself (`this == &other`) or another object. -/
inductive Rhs (α : Type)
  | self
  | object (o : α)
  deriving DecidableEq, Repr

/-! The primary template `OptionStorage<T>`. -/

/-- Owned storage: the tag and the payload bytes. -/
structure OptionStorage (T : Type) where
  m_state : State
  m_buff : Buff T
  deriving DecidableEq, Repr

namespace OptionStorage

variable {T : Type}

/-- Source: `OptionStorage() : m_state(NONE) {}`. -/
def ctor : OptionStorage T := ⟨.NONE, .raw⟩

/-- Source: `OptionStorage(U &&value) : m_state(SOME) { new (m_buff) T(std::forward<U>(value)); }`. -/
def ctor_value (value : T) : OptionStorage T := ⟨.SOME, .obj value⟩

/-- Source: `bool is_some() const { return m_state == SOME; }`. -/
def is_some (self : OptionStorage T) : Bool := self.m_state == .SOME

/-- Source: `bool is_none() const { return m_state == NONE; }`. -/
def is_none (self : OptionStorage T) : Bool := self.m_state == .NONE

/-- Source: `T &&get() { m_state = NONE; return std::move(*cast(m_buff)); }`. -/
def get (self : OptionStorage T) : Except Fault (T × OptionStorage T) := do
  let self1 : OptionStorage T := { self with m_state := .NONE }
  let v ← self1.m_buff.read
  pure (v, self1)

/-- Source: `T &ref() { return *cast(m_buff); }`. -/
def ref (self : OptionStorage T) : Except Fault T := self.m_buff.read

/-- What a callee's writes through the `T &` of `ref()` leave in the slot. -/
def ref_store (self : OptionStorage T) (v : T) : OptionStorage T := { self with m_buff := .obj v }

/-- Source: `const T &cref() const { return *cast_const(m_buff); }`. -/
def cref (self : OptionStorage T) : Except Fault T := self.m_buff.read

/-- Source: `OptionStorage(const OptionStorage &other) : m_state(other.m_state) { new (m_buff) T(other.cref()); }`. -/
def ctor_copy (other : OptionStorage T) : Except Fault (OptionStorage T) := do
  let self0 : OptionStorage T := ⟨other.m_state, .raw⟩
  let v ← other.cref
  pure { self0 with m_buff := .obj v }

/-- Source: `OptionStorage &operator=(const OptionStorage &other)`. -/
def assign_copy (self : OptionStorage T) (other : Rhs (OptionStorage T)) :
    Except Fault (OptionStorage T) :=
  match other with
  | .self => pure self
  | .object other => do
    let buff ← if self.is_some then self.m_buff.destroy else pure self.m_buff
    let self1 : OptionStorage T := ⟨other.m_state, buff⟩
    if self1.is_some then do
      let v ← other.cref
      pure { self1 with m_buff := .obj v }
    else
      pure self1

/-- Source: `OptionStorage(OptionStorage &&other) : m_state(other.m_state)`; returns `(*this, other)`. -/
def ctor_move (other : OptionStorage T) : Except Fault (OptionStorage T × OptionStorage T) := do
  let self0 : OptionStorage T := ⟨other.m_state, .raw⟩
  if self0.is_some then do
    let (v, other1) ← other.get
    pure ({ self0 with m_buff := .obj v }, { other1 with m_state := .NONE })
  else
    pure (self0, { other with m_state := .NONE })

/-- Source: `OptionStorage &operator=(OptionStorage &&other)`; returns `(*this, other)`. -/
def assign_move (self : OptionStorage T) (other : Rhs (OptionStorage T)) :
    Except Fault (OptionStorage T × Rhs (OptionStorage T)) :=
  match other with
  | .self => pure (self, .self)
  | .object other => do
    let buff ← if self.is_some then self.m_buff.destroy else pure self.m_buff
    let self1 : OptionStorage T := ⟨other.m_state, buff⟩
    if self1.is_some then do
      let (v, other1) ← other.get
      pure ({ self1 with m_buff := .obj v }, .object { other1 with m_state := .NONE })
    else
      pure (self1, .object { other with m_state := .NONE })

/-- Source: `~OptionStorage() { if (is_some()) cast(m_buff)->~T(); }`; returns the bytes left behind. -/
def dtor (self : OptionStorage T) : Except Fault (Buff T) :=
  if self.is_some then self.m_buff.destroy else pure self.m_buff

end OptionStorage

/-! The specialisation `OptionStorage<T &>`. -/

/-- Mutable-reference storage: the address of the referent, or `nullptr`. -/
structure OptionStorageRef (T : Type) where
  m_ptr : Ptr
  deriving DecidableEq, Repr

namespace OptionStorageRef

variable {T : Type}

/-- Source: `OptionStorage(T &value) : m_ptr(&value) {}`. -/
def ctor_value (value : Addr) : OptionStorageRef T := ⟨.addr value⟩

/-- Source: `OptionStorage() : m_ptr(nullptr) {}`. -/
def ctor : OptionStorageRef T := ⟨.nullptr⟩

/-- Source: `OptionStorage(const OptionStorage &other) = default;`. -/
def ctor_copy (other : OptionStorageRef T) : OptionStorageRef T := ⟨other.m_ptr⟩

/-- Source: `OptionStorage &operator=(const OptionStorage &other) = default;`. -/
def assign_copy (self : OptionStorageRef T) (other : Rhs (OptionStorageRef T)) :
    OptionStorageRef T :=
  match other with
  | .self => ⟨self.m_ptr⟩
  | .object other => ⟨other.m_ptr⟩

/-- Source: `OptionStorage &operator=(OptionStorage &&other) = default;`; returns `(*this, other)`. -/
def assign_move (self : OptionStorageRef T) (other : Rhs (OptionStorageRef T)) :
    OptionStorageRef T × Rhs (OptionStorageRef T) :=
  match other with
  | .self => (⟨self.m_ptr⟩, .self)
  | .object other => (⟨other.m_ptr⟩, .object other)

/-- Source: `OptionStorage(OptionStorage &&other) = default;`; returns `(*this, other)`. -/
def ctor_move (other : OptionStorageRef T) : OptionStorageRef T × OptionStorageRef T :=
  (⟨other.m_ptr⟩, other)

/-- Source: `bool is_some() const { return m_ptr != nullptr; }`. -/
def is_some (self : OptionStorageRef T) : Bool := self.m_ptr != .nullptr

/-- Source: `bool is_none() const { return m_ptr == nullptr; }`. -/
def is_none (self : OptionStorageRef T) : Bool := self.m_ptr == .nullptr

/-- Source: `T &get() { T *ret = m_ptr; m_ptr = nullptr; return *ret; }`. -/
def get (self : OptionStorageRef T) : Except Fault (Addr × OptionStorageRef T) := do
  let ret := self.m_ptr
  let self1 : OptionStorageRef T := { self with m_ptr := .nullptr }
  let r ← ret.deref
  pure (r, self1)

/-- Source: `T &ref() { return *m_ptr; }`. -/
def ref (self : OptionStorageRef T) : Except Fault Addr := self.m_ptr.deref

/-- Source: `const T &cref() const { return *m_ptr; }`. -/
def cref (self : OptionStorageRef T) : Except Fault Addr := self.m_ptr.deref

end OptionStorageRef

/-! The specialisation `OptionStorage<const T &>`. -/

/-- Read-only-reference storage: the address of the referent, or `nullptr`. -/
structure OptionStorageConstRef (T : Type) where
  m_ptr : Ptr
  deriving DecidableEq, Repr

namespace OptionStorageConstRef

variable {T : Type}

/-- Source: `OptionStorage(const T &value) : m_ptr(&value) {}`. -/
def ctor_value (value : Addr) : OptionStorageConstRef T := ⟨.addr value⟩

/-- Source: `OptionStorage() : m_ptr(nullptr) {}`. -/
def ctor : OptionStorageConstRef T := ⟨.nullptr⟩

/-- Source: `OptionStorage(const OptionStorage &other) = default;`. -/
def ctor_copy (other : OptionStorageConstRef T) : OptionStorageConstRef T := ⟨other.m_ptr⟩

/-- Source: `OptionStorage &operator=(const OptionStorage &other) = default;`. -/
def assign_copy (self : OptionStorageConstRef T) (other : Rhs (OptionStorageConstRef T)) :
    OptionStorageConstRef T :=
  match other with
  | .self => ⟨self.m_ptr⟩
  | .object other => ⟨other.m_ptr⟩

/-- Source: `OptionStorage &operator=(OptionStorage &&other) = default;`; returns `(*this, other)`. -/
def assign_move (self : OptionStorageConstRef T) (other : Rhs (OptionStorageConstRef T)) :
    OptionStorageConstRef T × Rhs (OptionStorageConstRef T) :=
  match other with
  | .self => (⟨self.m_ptr⟩, .self)
  | .object other => (⟨other.m_ptr⟩, .object other)

/-- Source: `OptionStorage(OptionStorage &&other) = default;`; returns `(*this, other)`. -/
def ctor_move (other : OptionStorageConstRef T) :
    OptionStorageConstRef T × OptionStorageConstRef T :=
  (⟨other.m_ptr⟩, other)

/-- Source: `bool is_some() const { return m_ptr != nullptr; }`. -/
def is_some (self : OptionStorageConstRef T) : Bool := self.m_ptr != .nullptr

/-- Source: `bool is_none() const { return m_ptr == nullptr; }`. -/
def is_none (self : OptionStorageConstRef T) : Bool := self.m_ptr == .nullptr

/-- Source: `const T &get() { const T *ret = m_ptr; m_ptr = nullptr; return *ret; }`. -/
def get (self : OptionStorageConstRef T) : Except Fault (Addr × OptionStorageConstRef T) := do
  let ret := self.m_ptr
  let self1 : OptionStorageConstRef T := { self with m_ptr := .nullptr }
  let r ← ret.deref
  pure (r, self1)

/-- Source: `const T &ref() const { return *m_ptr; }`. -/
def ref (self : OptionStorageConstRef T) : Except Fault Addr := self.m_ptr.deref

/-- Source: `const T &cref() const { return *m_ptr; }`. -/
def cref (self : OptionStorageConstRef T) : Except Fault Addr := self.m_ptr.deref

end OptionStorageConstRef

/-! Selection of the storage by the payload kind, as the template specialisations do. -/

/-- The three instantiations of the facade: `Option<T>`, `Option<T &>`, `Option<const T &>`. -/
inductive Kind
  | Owned
  | MutRef
  | ConstRef
  deriving DecidableEq, Repr

/-- The types `ret_t` and `param_t` of a storage: a `T` for the owned kind, a reference for the others. -/
@[reducible] def Payload : Kind → Type → Type
  | .Owned, T => T
  | .MutRef, _ => Addr
  | .ConstRef, _ => Addr

/-- The type `OptionStorage<T>` picked for the kind. -/
@[reducible] def Storage : Kind → Type → Type
  | .Owned, T => OptionStorage T
  | .MutRef, T => OptionStorageRef T
  | .ConstRef, T => OptionStorageConstRef T

namespace Storage

variable {T : Type}

/-- Default constructor of the storage. -/
def ctor : (K : Kind) → Storage K T
  | .Owned => OptionStorage.ctor
  | .MutRef => OptionStorageRef.ctor
  | .ConstRef => OptionStorageConstRef.ctor

/-- Value constructor of the storage. -/
def ctor_value : (K : Kind) → Payload K T → Storage K T
  | .Owned, value => OptionStorage.ctor_value value
  | .MutRef, value => OptionStorageRef.ctor_value value
  | .ConstRef, value => OptionStorageConstRef.ctor_value value

/-- Copy constructor of the storage. -/
def ctor_copy : (K : Kind) → Storage K T → Except Fault (Storage K T)
  | .Owned, other => OptionStorage.ctor_copy other
  | .MutRef, other => pure (OptionStorageRef.ctor_copy other)
  | .ConstRef, other => pure (OptionStorageConstRef.ctor_copy other)

/-- Copy assignment of the storage. -/
def assign_copy : (K : Kind) → Storage K T → Rhs (Storage K T) → Except Fault (Storage K T)
  | .Owned, self, other => OptionStorage.assign_copy self other
  | .MutRef, self, other => pure (OptionStorageRef.assign_copy self other)
  | .ConstRef, self, other => pure (OptionStorageConstRef.assign_copy self other)

/-- Move constructor of the storage; returns `(*this, other)`. -/
def ctor_move : (K : Kind) → Storage K T → Except Fault (Storage K T × Storage K T)
  | .Owned, other => OptionStorage.ctor_move other
  | .MutRef, other => pure (OptionStorageRef.ctor_move other)
  | .ConstRef, other => pure (OptionStorageConstRef.ctor_move other)

/-- Move assignment of the storage; returns `(*this, other)`. -/
def assign_move : (K : Kind) → Storage K T → Rhs (Storage K T) →
    Except Fault (Storage K T × Rhs (Storage K T))
  | .Owned, self, other => OptionStorage.assign_move self other
  | .MutRef, self, other => pure (OptionStorageRef.assign_move self other)
  | .ConstRef, self, other => pure (OptionStorageConstRef.assign_move self other)

/-- Member `is_some()` of the storage. -/
def is_some : (K : Kind) → Storage K T → Bool
  | .Owned, self => OptionStorage.is_some self
  | .MutRef, self => OptionStorageRef.is_some self
  | .ConstRef, self => OptionStorageConstRef.is_some self

/-- Member `is_none()` of the storage. -/
def is_none : (K : Kind) → Storage K T → Bool
  | .Owned, self => OptionStorage.is_none self
  | .MutRef, self => OptionStorageRef.is_none self
  | .ConstRef, self => OptionStorageConstRef.is_none self

/-- Member `get()` of the storage; returns the payload and the storage after the call. -/
def get : (K : Kind) → Storage K T → Except Fault (Payload K T × Storage K T)
  | .Owned, self => OptionStorage.get self
  | .MutRef, self => OptionStorageRef.get self
  | .ConstRef, self => OptionStorageConstRef.get self

/-- Member `ref()` of the storage. -/
def ref : (K : Kind) → Storage K T → Except Fault (Payload K T)
  | .Owned, self => OptionStorage.ref self
  | .MutRef, self => OptionStorageRef.ref self
  | .ConstRef, self => OptionStorageConstRef.ref self

/-- The storage after a callee was handed `ref()` and left `v` behind it: the owned slot
holds what the callee wrote; a referent lives outside the storage, whose address stays. -/
def ref_store : (K : Kind) → Storage K T → Payload K T → Storage K T
  | .Owned, self, v => OptionStorage.ref_store self v
  | .MutRef, self, _ => self
  | .ConstRef, self, _ => self

/-- Member `cref()` of the storage. -/
def cref : (K : Kind) → Storage K T → Except Fault (Payload K T)
  | .Owned, self => OptionStorage.cref self
  | .MutRef, self => OptionStorageRef.cref self
  | .ConstRef, self => OptionStorageConstRef.cref self

end Storage

/-- A callable `B f(A)` run in the environment `σ` it captures. -/
abbrev Func (σ A B : Type) := A → σ → B × σ

/-- A callable `B f(A &)`: it also returns what it leaves in the referent it was handed. -/
abbrev FuncMut (σ A B : Type) := A → σ → (B × A) × σ

/-- A callable `B f()` run in the environment `σ` it captures. -/
abbrev Thunk (σ B : Type) := σ → B × σ

/-- The instrumented callable: `f`, which also appends its argument to a call log. -/
def logged {σ A B : Type} (f : Func σ A B) : Func (σ × List A) A B :=
  fun a s => ((f a s.1).1, ((f a s.1).2, s.2 ++ [a]))

/-- The instrumented callable taking a mutable reference. -/
def loggedMut {σ A B : Type} (f : FuncMut σ A B) : FuncMut (σ × List A) A B :=
  fun a s => ((f a s.1).1, ((f a s.1).2, s.2 ++ [a]))

/-- The instrumented thunk: `t`, which also counts its calls. -/
def counted {σ B : Type} (t : Thunk σ B) : Thunk (σ × Nat) B :=
  fun s => ((t s.1).1, ((t s.1).2, s.2 + 1))

/-- The callable `f` run in an environment that also carries a call log and a call count. -/
def loggedIn {σ A B : Type} (f : Func σ A B) : Func (σ × List A × Nat) A B :=
  fun a s => ((f a s.1).1, ((f a s.1).2, s.2.1 ++ [a], s.2.2))

/-- The thunk `t` run in an environment that also carries a call log and a call count. -/
def countedIn {σ A B : Type} (t : Thunk σ B) : Thunk (σ × List A × Nat) B :=
  fun s => ((t s.1).1, ((t s.1).2, s.2.1, s.2.2 + 1))

/-- The tag type `struct None {};`. -/
structure None where

/-- How a call ends: it returns a value, or `std::terminate()` ends the process. -/
inductive Exit (α : Type)
  | returned (a : α)
  | terminated

/-- The class template `Option<T>`: `OptionStorage<T> m_storage;`. -/
structure Option (K : Kind) (T : Type) where
  m_storage : Storage K T

namespace Option

variable {K : Kind} {T : Type}

/-- Source: `Option() {}`. -/
def ctor : Option K T := ⟨Storage.ctor K⟩

/-- Source: `Option(None) {}`. -/
def ctor_none (_ : None) : Option K T := ⟨Storage.ctor K⟩

/-- Source: `Option(U &&value) : m_storage(std::forward<U>(value)) {}`. -/
def ctor_value (value : Payload K T) : Option K T := ⟨Storage.ctor_value K value⟩

/-- Source: `Option(const Option &) = default;`. -/
def ctor_copy (other : Option K T) : Except Fault (Option K T) := do
  let s ← Storage.ctor_copy K other.m_storage
  pure ⟨s⟩

/-- Source: `Option &operator=(const Option &) = default;`. -/
def assign_copy (self : Option K T) (other : Rhs (Option K T)) : Except Fault (Option K T) :=
  match other with
  | .self => do
    let s ← Storage.assign_copy K self.m_storage .self
    pure ⟨s⟩
  | .object other => do
    let s ← Storage.assign_copy K self.m_storage (.object other.m_storage)
    pure ⟨s⟩

/-- Source: `Option(Option &&) = default;`; returns `(*this, other)`. -/
def ctor_move (other : Option K T) : Except Fault (Option K T × Option K T) := do
  let (s, o) ← Storage.ctor_move K other.m_storage
  pure (⟨s⟩, ⟨o⟩)

/-- Source: `Option &operator=(Option &&) = default;`; returns `(*this, other)`. -/
def assign_move (self : Option K T) (other : Rhs (Option K T)) :
    Except Fault (Option K T × Rhs (Option K T)) :=
  match other with
  | .self => do
    let (s, _) ← Storage.assign_move K self.m_storage .self
    pure (⟨s⟩, .self)
  | .object other => do
    let (s, o) ← Storage.assign_move K self.m_storage (.object other.m_storage)
    match o with
    | .self => pure (⟨s⟩, .self)
    | .object o => pure (⟨s⟩, .object ⟨o⟩)

/-- Source: `bool is_some() const { return m_storage.is_some(); }`. -/
def is_some (self : Option K T) : Bool := Storage.is_some K self.m_storage

/-- Source: `bool is_none() const { return m_storage.is_none(); }`. -/
def is_none (self : Option K T) : Bool := Storage.is_none K self.m_storage

/-- Source: `Option<T> take()`; returns `(result, *this)`. -/
def take (self : Option K T) : Except Fault (Option K T × Option K T) :=
  if self.is_some then do
    let (v, s) ← Storage.get K self.m_storage
    pure (ctor_value v, ⟨s⟩)
  else
    pure (ctor, self)

/-- Source: `template <typename Func> bool is_some_and(Func &&f)`; returns `(result, *this, env)`. -/
def is_some_and {σ : Type} (self : Option K T) (f : Func σ (Payload K T) Bool) (env : σ) :
    Except Fault (Bool × Option K T × σ) :=
  if self.is_some then do
    let (v, s) ← Storage.get K self.m_storage
    let r := f v env
    pure (r.1, ⟨s⟩, r.2)
  else
    pure (false, self, env)

/-- Source: `Option<U> map(Func &&f)`; returns `(result, *this, env)`. -/
def map {σ : Type} {J : Kind} {U : Type} (self : Option K T)
    (f : Func σ (Payload K T) (Payload J U)) (env : σ) :
    Except Fault (Option J U × Option K T × σ) :=
  if self.is_some then do
    let (v, s) ← Storage.get K self.m_storage
    let r := f v env
    pure (ctor_value r.1, ⟨s⟩, r.2)
  else
    pure (ctor, self, env)

/-- Source: `Option<U> and_then(Func &&f)`; returns `(result, *this, env)`. -/
def and_then {σ : Type} {J : Kind} {U : Type} (self : Option K T)
    (f : Func σ (Payload K T) (Option J U)) (env : σ) :
    Except Fault (Option J U × Option K T × σ) :=
  if self.is_some then do
    let (v, s) ← Storage.get K self.m_storage
    let r := f v env
    pure (r.1, ⟨s⟩, r.2)
  else
    pure (ctor, self, env)

/-- Source: `Option<T> filter(Pred &&pred)`; returns `(result, *this, env)`. -/
def filter {σ : Type} (self : Option K T) (pred : Func σ (Payload K T) Bool) (env : σ) :
    Except Fault (Option K T × Option K T × σ) :=
  if self.is_some then do
    let v ← Storage.cref K self.m_storage
    let r := pred v env
    if r.1 then do
      let (ret, self1) ← ctor_move self
      pure (ret, self1, r.2)
    else
      pure (ctor, self, r.2)
  else
    pure (ctor, self, env)

/-- Source: `Option<T> xor_(Option<T> opt)`; returns `(result, *this)`. -/
def xor_ (self : Option K T) (opt : Option K T) : Except Fault (Option K T × Option K T) :=
  if !(xor self.is_some opt.is_some) then
    pure (ctor, self)
  else if self.is_some then
    ctor_move self
  else do
    let (ret, _) ← ctor_move opt
    pure (ret, self)

/-- Source: `ref_t insert(U &&value)`; returns `(m_storage.ref(), *this)`. -/
def insert (self : Option K T) (value : Payload K T) :
    Except Fault (Payload K T × Option K T) := do
  let (s, _) ← Storage.assign_move K self.m_storage (.object (Storage.ctor_value K value))
  let r ← Storage.ref K s
  pure (r, ⟨s⟩)

/-- Source: `Option<T> take_if(Pred &&p)`; returns `(result, *this, env)`. -/
def take_if {σ : Type} (self : Option K T) (p : FuncMut σ (Payload K T) Bool) (env : σ) :
    Except Fault (Option K T × Option K T × σ) :=
  if self.is_some then do
    let v ← Storage.ref K self.m_storage
    let r := p v env
    let self1 : Option K T := ⟨Storage.ref_store K self.m_storage r.1.2⟩
    if r.1.1 then do
      let (w, s) ← Storage.get K self1.m_storage
      pure (ctor_value w, ⟨s⟩, r.2)
    else
      pure (ctor, self1, r.2)
  else
    pure (ctor, self, env)

/-- Source: `Option<T> replace(U &&value)`; returns `(ret, *this)`. -/
def replace (self : Option K T) (value : Payload K T) :
    Except Fault (Option K T × Option K T) := do
  let (ret, self1) ← ctor_move self
  let (_, self2) ← self1.insert value
  pure (ret, self2)

/-- Source: `Option<T> or_(Option<T> opt)`; returns `(result, *this)`. -/
def or_ (self : Option K T) (opt : Option K T) : Except Fault (Option K T × Option K T) :=
  if self.is_some then
    ctor_move self
  else do
    let (ret, _) ← ctor_move opt
    pure (ret, self)

/-- Source: `template <typename Func> Option<T> or_else(Func &&f)`; returns
`(result, *this, env)`. -/
def or_else {σ : Type} (self : Option K T) (f : Thunk σ (Option K T)) (env : σ) :
    Except Fault (Option K T × Option K T × σ) :=
  if self.is_some then do
    let (ret, self1) ← ctor_move self
    pure (ret, self1, env)
  else
    let r := f env
    pure (r.1, self, r.2)

/-- Source: `template <typename U> Option<U> and_(Option<U> opt)`; returns `(result, *this)`. -/
def and_ {J : Kind} {U : Type} (self : Option K T) (opt : Option J U) :
    Except Fault (Option J U × Option K T) :=
  if self.is_some then do
    let (ret, _) ← ctor_move opt
    pure (ret, self)
  else
    pure (ctor, self)

/-- Source: `ref_t get_or_insert(U &&value)`; returns `(handle read, *this)`. -/
def get_or_insert (self : Option K T) (value : Payload K T) :
    Except Fault (Payload K T × Option K T) :=
  if self.is_some then do
    let r ← Storage.ref K self.m_storage
    pure (r, self)
  else
    self.insert value

/-- Source: `ref_t get_or_insert_default()`, which a `static_assert` keeps to the owned kind;
`T()` is `default`. Returns `(handle read, *this)`. -/
def get_or_insert_default [Inhabited T] (self : Option .Owned T) :
    Except Fault (T × Option .Owned T) :=
  if self.is_some then do
    let r ← Storage.ref .Owned self.m_storage
    pure (r, self)
  else do
    let (s, _) ← Storage.assign_move .Owned self.m_storage
      (.object (Storage.ctor_value .Owned (default : T)))
    let r ← Storage.ref .Owned s
    pure (r, ⟨s⟩)

/-- Source: `template <typename Func> ref_t get_or_insert_with(Func &&f)`; returns
`(handle read, *this, env)`. -/
def get_or_insert_with {σ : Type} (self : Option K T) (f : Thunk σ (Payload K T)) (env : σ) :
    Except Fault (Payload K T × Option K T × σ) :=
  if self.is_some then do
    let r ← Storage.ref K self.m_storage
    pure (r, self, env)
  else do
    let x := f env
    let (s, _) ← Storage.assign_move K self.m_storage (.object (Storage.ctor_value K x.1))
    let r ← Storage.ref K s
    pure (r, ⟨s⟩, x.2)

/-- Source: `ret_t expect(const char *msg)`; `cerr` is the list of lines written to
`std::cerr`. Returns how the call ends and the stream after it. -/
def expect (self : Option K T) (msg : String) (cerr : List String) :
    Except Fault (Exit (Payload K T × Option K T) × List String) :=
  if self.is_some then do
    let (v, s) ← Storage.get K self.m_storage
    pure (.returned (v, ⟨s⟩), cerr)
  else
    pure (.terminated, cerr ++ [msg])

/-- Source: `ret_t unwrap()`. Returns how the call ends and the stream after it. -/
def unwrap (self : Option K T) (cerr : List String) :
    Except Fault (Exit (Payload K T × Option K T) × List String) :=
  if self.is_some then do
    let (v, s) ← Storage.get K self.m_storage
    pure (.returned (v, ⟨s⟩), cerr)
  else
    pure (.terminated, cerr ++ ["unwrap() called on Option with None value"])

/-- Source: `ret_t unwrap_or(U &&def)`; returns `(result, *this)`. -/
def unwrap_or (self : Option K T) (dflt : Payload K T) :
    Except Fault (Payload K T × Option K T) :=
  if self.is_some then do
    let (v, s) ← Storage.get K self.m_storage
    pure (v, ⟨s⟩)
  else
    pure (dflt, self)

/-- Source: `template <typename Func> ret_t unwrap_or_else(Func &&f)`; returns
`(result, *this, env)`. -/
def unwrap_or_else {σ : Type} (self : Option K T) (f : Thunk σ (Payload K T)) (env : σ) :
    Except Fault (Payload K T × Option K T × σ) :=
  if self.is_some then do
    let (v, s) ← Storage.get K self.m_storage
    pure (v, ⟨s⟩, env)
  else
    let r := f env
    pure (r.1, self, r.2)

/-- Source: `T unwrap_or_default()`, which a `static_assert` keeps to the owned kind; `T()` is
`default`. Returns `(result, *this)`. -/
def unwrap_or_default [Inhabited T] (self : Option .Owned T) :
    Except Fault (T × Option .Owned T) :=
  if self.is_some then do
    let (v, s) ← Storage.get .Owned self.m_storage
    pure (v, ⟨s⟩)
  else
    pure ((default : T), self)

/-- Source: `ret_t unwrap_unchecked() { return m_storage.get(); }`; returns `(result, *this)`. -/
def unwrap_unchecked (self : Option K T) : Except Fault (Payload K T × Option K T) := do
  let (v, s) ← Storage.get K self.m_storage
  pure (v, ⟨s⟩)

/-- Source: `Option<U> map_or(U &&def, Func &&f)`; returns `(result, *this, env)`. -/
def map_or {σ : Type} {J : Kind} {U : Type} (self : Option K T) (dflt : Payload J U)
    (f : Func σ (Payload K T) (Payload J U)) (env : σ) :
    Except Fault (Option J U × Option K T × σ) :=
  if self.is_some then do
    let (v, s) ← Storage.get K self.m_storage
    let r := f v env
    pure (ctor_value r.1, ⟨s⟩, r.2)
  else
    pure (ctor_value dflt, self, env)

/-- Source: `Option<U> map_or_else(D &&def, F &&f)`; returns `(result, *this, env)`. -/
def map_or_else {σ : Type} {J : Kind} {U : Type} (self : Option K T)
    (dflt : Thunk σ (Payload J U)) (f : Func σ (Payload K T) (Payload J U)) (env : σ) :
    Except Fault (Option J U × Option K T × σ) :=
  if self.is_some then do
    let (v, s) ← Storage.get K self.m_storage
    let r := f v env
    pure (ctor_value r.1, ⟨s⟩, r.2)
  else
    let d := dflt env
    pure (ctor_value d.1, self, d.2)

/-- Source: `template <typename Func> Option<T> inspect(Func &&f)`; returns
`(result, *this, env)`. -/
def inspect {σ : Type} (self : Option K T) (f : Func σ (Payload K T) Unit) (env : σ) :
    Except Fault (Option K T × Option K T × σ) := do
  let env1 ← if self.is_some then do
      let v ← Storage.cref K self.m_storage
      pure (f v env).2
    else
      pure env
  let (ret, self1) ← ctor_move self
  pure (ret, self1, env1)

/-- The object that `m_storage.cref()` and `m_storage.ref()` refer to, as an address: the
owned payload lives in `m_buff`, at the address `slot`; the reference kinds refer to `*m_ptr`. -/
def referent : (K : Kind) → Storage K T → Addr → Except Fault Addr
  | .Owned, _, slot => pure slot
  | .MutRef, s, _ => OptionStorageRef.ref s
  | .ConstRef, s, _ => OptionStorageConstRef.cref s

/-- The kind of `Option<T &>` for the `T` of the receiver: `int &` for `int` and for `int &`,
`const int &` for `const int &`. -/
@[reducible] def as_mut_kind : Kind → Kind
  | .Owned => .MutRef
  | .MutRef => .MutRef
  | .ConstRef => .ConstRef

/-- A reference, as the payload of the kind `as_mut_kind K`. -/
def as_mut_payload : (K : Kind) → Addr → Payload (as_mut_kind K) T
  | .Owned, a => a
  | .MutRef, a => a
  | .ConstRef, a => a

/-- Source: `Option<cref_t> as_ref() const`; `slot` is the address of the receiver's `m_buff`. -/
def as_ref (self : Option K T) (slot : Addr) : Except Fault (Option .ConstRef T) :=
  if self.is_some then do
    let a ← referent K self.m_storage slot
    pure (ctor_value a)
  else
    pure ctor

/-- Source: `Option<T &> as_mut() &`; `slot` is the address of the receiver's `m_buff`.
Returns `(result, *this)`. -/
def as_mut (self : Option K T) (slot : Addr) :
    Except Fault (Option (as_mut_kind K) T × Option K T) :=
  if self.is_some then do
    let a ← referent K self.m_storage slot
    pure (ctor_value (as_mut_payload K a), self)
  else
    pure (ctor, self)

/-- The address of the payload of a container that holds `v`: `slot`, where its `m_buff`
lives, for the owned kind; `v` itself for the reference kinds. -/
def payload_addr : (K : Kind) → Payload K T → Addr → Addr
  | .Owned, _, slot => slot
  | .MutRef, v, _ => v
  | .ConstRef, v, _ => v

/-- The container is Present and holds `v`: `is_some()` answers true and the payload read is `v`. -/
def Present (c : Option K T) (v : Payload K T) : Prop :=
  c.is_some = true ∧ Storage.cref K c.m_storage = .ok v

/-- The container is Absent: `is_none()` answers true. -/
def Absent (c : Option K T) : Prop := c.is_none = true

/-- The container a Present one holding `v` is left as by `get()`: the owned bytes stay under
the tag `NONE`; the reference kinds hold `nullptr`. -/
def drained (v : Payload K T) : Option K T :=
  match K, v with
  | .Owned, v => ⟨⟨.NONE, .obj v⟩⟩
  | .MutRef, _ => ⟨⟨.nullptr⟩⟩
  | .ConstRef, _ => ⟨⟨.nullptr⟩⟩

end Option

/-- Source: `template <typename T> inline Option<T> Some(T &&val)`. -/
def Some {K : Kind} {T : Type} (val : Payload K T) : Option K T := Option.ctor_value val

/-- The composite `h(v) = g(f(v))` of two callables run in one environment. -/
def composed {σ A B C : Type} (f : Func σ A B) (g : Func σ B C) : Func σ A C :=
  fun a s => g (f a s).1 (f a s).2

/-- The sequence `take()` then `insert(value)` on one container: the Option returned by
`take()` and the container after `insert`. -/
def Option.take_then_insert {K : Kind} {T : Type} (self : Option K T) (value : Payload K T) :
    Except Fault (Option K T × Option K T) := do
  let (r, self1) ← self.take
  let (_, self2) ← self1.insert value
  pure (r, self2)

/-! The insertion operations of the owned kind when a constructor of `T` throws. The
constructions of a `T` are counted in the order in which they run: `budget` of them succeed
and the next one throws. -/

/-- How an operation ends when the constructors of `T` may throw: it completes with its
result and the constructions that may still succeed, or an exception leaves it with the
objects it worked on in the state given. -/
inductive Unwind (α ρ : Type)
  | done (a : α) (budget : Nat)
  | thrown (left : ρ)

/-- Source: `OptionStorage(U &&value) : m_state(SOME) { new (m_buff) T(..); }` with a throwing
`T(..)`: after a throw no storage exists. -/
def OptionStorage.ctor_value_exn {T : Type} (value : T) : Nat → Unwind (OptionStorage T) Unit
  | 0 => .thrown ()
  | n + 1 => .done ⟨.SOME, .obj value⟩ n

/-- Source: `OptionStorage(OptionStorage &&other)` with a throwing `T(..)`: after a throw only
`other` exists, as `other.get()` left it. -/
def OptionStorage.ctor_move_exn {T : Type} (other : OptionStorage T) (budget : Nat) :
    Except Fault (Unwind (OptionStorage T × OptionStorage T) (OptionStorage T)) := do
  let self0 : OptionStorage T := ⟨other.m_state, .raw⟩
  if self0.is_some then do
    let (v, other1) ← other.get
    match budget with
    | 0 => pure (.thrown other1)
    | n + 1 => pure (.done ({ self0 with m_buff := .obj v }, { other1 with m_state := .NONE }) n)
  else
    pure (.done (self0, { other with m_state := .NONE }) budget)

/-- Source: `OptionStorage &operator=(OptionStorage &&other)`, for `other` another object, with
a throwing `T(..)`: a throw leaves `(*this, other)` as the statements before it made them. -/
def OptionStorage.assign_move_exn {T : Type} (self other : OptionStorage T) (budget : Nat) :
    Except Fault
      (Unwind (OptionStorage T × OptionStorage T) (OptionStorage T × OptionStorage T)) := do
  let buff ← if self.is_some then self.m_buff.destroy else pure self.m_buff
  let self1 : OptionStorage T := ⟨other.m_state, buff⟩
  if self1.is_some then do
    let (v, other1) ← other.get
    match budget with
    | 0 => pure (.thrown (self1, other1))
    | n + 1 => pure (.done ({ self1 with m_buff := .obj v }, { other1 with m_state := .NONE }) n)
  else
    pure (.done (self1, { other with m_state := .NONE }) budget)

/-- Source: `ref_t insert(U &&value)` on the owned kind with a throwing `T(..)`; a throw
leaves the receiver in the state given. -/
def Option.insert_exn {T : Type} (self : Option .Owned T) (value : T) (budget : Nat) :
    Except Fault (Unwind (T × Option .Owned T) (Option .Owned T)) :=
  match OptionStorage.ctor_value_exn value budget with
  | .thrown _ => pure (.thrown self)
  | .done tmp n => do
    match ← OptionStorage.assign_move_exn self.m_storage tmp n with
    | .thrown left => pure (.thrown ⟨left.1⟩)
    | .done st m => do
      let r ← OptionStorage.ref st.1
      pure (.done (r, ⟨st.1⟩) m)

/-- Source: `ref_t get_or_insert(U &&value)` on the owned kind with a throwing `T(..)`. -/
def Option.get_or_insert_exn {T : Type} (self : Option .Owned T) (value : T) (budget : Nat) :
    Except Fault (Unwind (T × Option .Owned T) (Option .Owned T)) :=
  if self.is_some then do
    let r ← OptionStorage.ref self.m_storage
    pure (.done (r, self) budget)
  else
    self.insert_exn value budget

/-- Source: `ref_t get_or_insert_default()` with a throwing `T(..)`: `T()` is the first
construction, `Storage(T())` the second, the move assignment the third. -/
def Option.get_or_insert_default_exn {T : Type} [Inhabited T] (self : Option .Owned T)
    (budget : Nat) : Except Fault (Unwind (T × Option .Owned T) (Option .Owned T)) :=
  if self.is_some then do
    let r ← OptionStorage.ref self.m_storage
    pure (.done (r, self) budget)
  else
    match budget with
    | 0 => pure (.thrown self)
    | n + 1 => self.insert_exn (default : T) n

/-- Source: `ref_t get_or_insert_with(Func &&f)` with a throwing `T(..)`: the `T` returned by
`f()` is the first construction, `Storage(f())` the second, the move assignment the third. -/
def Option.get_or_insert_with_exn {T σ : Type} (self : Option .Owned T) (f : Thunk σ T)
    (env : σ) (budget : Nat) :
    Except Fault (Unwind (T × Option .Owned T × σ) (Option .Owned T)) :=
  if self.is_some then do
    let r ← OptionStorage.ref self.m_storage
    pure (.done (r, self, env) budget)
  else
    match budget with
    | 0 => pure (.thrown self)
    | n + 1 =>
      let x := f env
      do
        match ← self.insert_exn x.1 n with
        | .thrown left => pure (.thrown left)
        | .done a m => pure (.done (a.1, a.2, x.2) m)

/-- Source: `Option<T> replace(U &&value)` on the owned kind with a throwing `T(..)`; the
local `ret` is destroyed by the unwinding. -/
def Option.replace_exn {T : Type} (self : Option .Owned T) (value : T) (budget : Nat) :
    Except Fault (Unwind (Option .Owned T × Option .Owned T) (Option .Owned T)) := do
  match ← OptionStorage.ctor_move_exn self.m_storage budget with
  | .thrown left => pure (.thrown ⟨left⟩)
  | .done st n => do
    match ← Option.insert_exn ⟨st.2⟩ value n with
    | .thrown left => pure (.thrown left)
    | .done a m => pure (.done (⟨st.1⟩, a.2) m)

/-! The lifecycle of the owned slot: the storage operations on the tag and on the liveness
of the payload, with a ledger of the events that must not happen. -/

/-- Ghost view of an owned storage: the tag, and whether a `T` is alive in `m_buff`, that
is, was constructed there and has since been neither destroyed nor moved out by `get()`. -/
structure Slot where
  m_state : State
  live : Bool
  deriving DecidableEq, Repr

/-- Ledger of lifecycle events: constructions of a `T` into a slot whose payload is alive,
and destructor calls on a slot that holds no live payload. -/
structure Ledger where
  built_over_live : Nat
  destroyed_dead : Nat
  deriving DecidableEq, Repr

namespace Slot

/-- The statement `new (m_buff) T(..)`. -/
def build (s : Slot) (l : Ledger) : Slot × Ledger :=
  ({ s with live := true },
    if s.live then { l with built_over_live := l.built_over_live + 1 } else l)

/-- The statement `cast(m_buff)->~T()`. -/
def destroy (s : Slot) (l : Ledger) : Slot × Ledger :=
  ({ s with live := false },
    if s.live then l else { l with destroyed_dead := l.destroyed_dead + 1 })

/-- Source: `OptionStorage() : m_state(NONE) {}`. -/
def ctor : Slot := ⟨.NONE, false⟩

/-- Source: `OptionStorage(U &&value) : m_state(SOME) { new (m_buff) T(..); }`. -/
def ctor_value (l : Ledger) : Slot × Ledger := build ⟨.SOME, false⟩ l

/-- Source: `bool is_some() const { return m_state == SOME; }`. -/
def is_some (s : Slot) : Bool := s.m_state == .SOME

/-- Source: `T &&get() { m_state = NONE; return std::move(*cast(m_buff)); }`; the payload is
moved out. -/
def get (_ : Slot) : Slot := ⟨.NONE, false⟩

/-- Source: `OptionStorage(const OptionStorage &other) : m_state(other.m_state)
{ new (m_buff) T(other.cref()); }`. -/
def ctor_copy (other : Slot) (l : Ledger) : Slot × Ledger := build ⟨other.m_state, false⟩ l

/-- Source: `OptionStorage &operator=(const OptionStorage &other)`, for `other` another
object. -/
def assign_copy (self other : Slot) (l : Ledger) : Slot × Ledger :=
  let r := if self.is_some then self.destroy l else (self, l)
  let self1 : Slot := { r.1 with m_state := other.m_state }
  if self1.is_some then self1.build r.2 else (self1, r.2)

/-- Source: `OptionStorage(OptionStorage &&other)`; returns `(*this, other)`. -/
def ctor_move (other : Slot) (l : Ledger) : (Slot × Slot) × Ledger :=
  let self0 : Slot := ⟨other.m_state, false⟩
  if self0.is_some then
    let other1 := other.get
    let r := self0.build l
    ((r.1, { other1 with m_state := .NONE }), r.2)
  else
    ((self0, { other with m_state := .NONE }), l)

/-- Source: `OptionStorage &operator=(OptionStorage &&other)`, for `other` another object;
returns `(*this, other)`. -/
def assign_move (self other : Slot) (l : Ledger) : (Slot × Slot) × Ledger :=
  let r := if self.is_some then self.destroy l else (self, l)
  let self1 : Slot := { r.1 with m_state := other.m_state }
  if self1.is_some then
    let other1 := other.get
    let b := self1.build r.2
    ((b.1, { other1 with m_state := .NONE }), b.2)
  else
    ((self1, { other with m_state := .NONE }), r.2)

/-- Source: `~OptionStorage() { if (is_some()) cast(m_buff)->~T(); }`. -/
def dtor (self : Slot) (l : Ledger) : Slot × Ledger :=
  if self.is_some then self.destroy l else (self, l)

end Slot

/-- An owned storage operation applied to the objects numbered `i` and `j`. -/
inductive StorageOp
  | default_ctor (i : Nat)
  | value_ctor (i : Nat)
  | copy_ctor (i j : Nat)
  | move_ctor (i j : Nat)
  | copy_assign (i j : Nat)
  | move_assign (i j : Nat)
  | get (i : Nat)
  | dtor (i : Nat)
  deriving DecidableEq, Repr

/-- What is at an object number: nothing, or a storage. -/
inductive Cell
  | gone
  | object (s : Slot)
  deriving DecidableEq, Repr

/-- The storages of a program, by object number. -/
abbrev Pool := Nat → Cell

/-- The pool with the cell `c` at `i`. -/
def Pool.set (p : Pool) (i : Nat) (c : Cell) : Pool := fun k => if k = i then c else p k

/-- One storage operation. A constructor makes the object `i`, which must not exist yet (a
copy or move constructor from the existing object `j`); the other operations act on existing
objects; an operation that does not fit is skipped. Assignment of an object to itself
returns at `this == &other`. -/
def StorageOp.step (op : StorageOp) (w : Pool × Ledger) : Pool × Ledger :=
  match op with
  | .default_ctor i =>
    match w.1 i with
    | .gone => (w.1.set i (.object Slot.ctor), w.2)
    | .object _ => w
  | .value_ctor i =>
    match w.1 i with
    | .gone => ((w.1.set i (.object (Slot.ctor_value w.2).1)), (Slot.ctor_value w.2).2)
    | .object _ => w
  | .copy_ctor i j =>
    match w.1 i, w.1 j with
    | .gone, .object o => (w.1.set i (.object (o.ctor_copy w.2).1), (o.ctor_copy w.2).2)
    | _, _ => w
  | .move_ctor i j =>
    match w.1 i, w.1 j with
    | .gone, .object o =>
      ((w.1.set j (.object (o.ctor_move w.2).1.2)).set i (.object (o.ctor_move w.2).1.1),
        (o.ctor_move w.2).2)
    | _, _ => w
  | .copy_assign i j =>
    match w.1 i, w.1 j with
    | .object s, .object o =>
      if i = j then w
      else (w.1.set i (.object (s.assign_copy o w.2).1), (s.assign_copy o w.2).2)
    | _, _ => w
  | .move_assign i j =>
    match w.1 i, w.1 j with
    | .object s, .object o =>
      if i = j then w
      else ((w.1.set j (.object (s.assign_move o w.2).1.2)).set i
        (.object (s.assign_move o w.2).1.1), (s.assign_move o w.2).2)
    | _, _ => w
  | .get i =>
    match w.1 i with
    | .object s => (w.1.set i (.object s.get), w.2)
    | .gone => w
  | .dtor i =>
    match w.1 i with
    | .object s => (w.1.set i .gone, (s.dtor w.2).2)
    | .gone => w

/-- A sequence of storage operations, run from the left. -/
def run : List StorageOp → Pool × Ledger → Pool × Ledger
  | [], w => w
  | op :: ops, w => run ops (op.step w)

/-- Every existing storage tagged `SOME` holds a live payload. -/
def Pool.TaggedLive (p : Pool) : Prop :=
  ∀ i s, p i = .object s → s.m_state = .SOME → s.live = true

/-- Every existing storage holds a live payload exactly when it is tagged `SOME`. -/
def Pool.LiveIffTagged (p : Pool) : Prop :=
  ∀ i s, p i = .object s → s.live = s.is_some

/-- The operation is no copy construction. -/
def StorageOp.no_copy_ctor : StorageOp → Bool
  | .copy_ctor _ _ => false
  | _ => true

/-! Shape of Present and Absent containers. -/

theorem present_iff {K : Kind} {T : Type} (c : Option K T) (v : Payload K T) :
    c.Present v ↔ c = Some v := by
  cases K
  · obtain ⟨⟨st, b⟩⟩ := c
    constructor
    · rintro ⟨h1, h2⟩
      cases st
      · cases b
        · cases h2
        · cases h2; rfl
      · cases h1
    · intro h; cases h; exact ⟨rfl, rfl⟩
  · obtain ⟨⟨p⟩⟩ := c
    constructor
    · rintro ⟨_, h2⟩
      cases p
      · cases h2
      · cases h2; rfl
    · intro h; cases h; exact ⟨rfl, rfl⟩
  · obtain ⟨⟨p⟩⟩ := c
    constructor
    · rintro ⟨_, h2⟩
      cases p
      · cases h2
      · cases h2; rfl
    · intro h; cases h; exact ⟨rfl, rfl⟩

theorem absent_iff {K : Kind} {T : Type} (c : Option K T) :
    c.Absent ↔ c.is_some = false := by
  cases K
  · obtain ⟨⟨st, b⟩⟩ := c
    cases st
    · exact ⟨fun h => (by cases h), fun h => (by cases h)⟩
    · exact ⟨fun _ => rfl, fun _ => rfl⟩
  · obtain ⟨⟨p⟩⟩ := c
    cases p
    · exact ⟨fun _ => rfl, fun _ => rfl⟩
    · exact ⟨fun h => (by cases h), fun h => (by cases h)⟩
  · obtain ⟨⟨p⟩⟩ := c
    cases p
    · exact ⟨fun _ => rfl, fun _ => rfl⟩
    · exact ⟨fun h => (by cases h), fun h => (by cases h)⟩

theorem some_present {K : Kind} {T : Type} (v : Payload K T) : (Some v : Option K T).Present v :=
  (present_iff _ _).2 rfl

theorem ctor_absent {K : Kind} {T : Type} : (Option.ctor : Option K T).Absent := by
  cases K <;> rfl

theorem present_not_absent {K : Kind} {T : Type} (c : Option K T) (v : Payload K T)
    (h : c.Present v) : ¬ c.Absent := by
  intro ha
  rw [absent_iff] at ha
  rw [h.1] at ha
  cases ha

theorem present_unique {K : Kind} {T : Type} (c : Option K T) {v w : Payload K T}
    (hv : c.Present v) (hw : c.Present w) : v = w := by
  have h := hv.2.symm.trans hw.2
  cases h
  rfl

/-- Every storage is Present holding a value, Absent, or tagged Present over bytes or an
address that `get()` cannot read. -/
theorem shape {K : Kind} {T : Type} (c : Option K T) :
    (∃ v, c.Present v) ∨ c.Absent ∨
      (c.is_some = true ∧ ∃ e, Storage.get K c.m_storage = .error e) := by
  cases K
  · obtain ⟨⟨st, bf⟩⟩ := c
    cases st
    · cases bf
      · exact Or.inr (Or.inr ⟨rfl, _, rfl⟩)
      · exact Or.inl ⟨_, rfl, rfl⟩
    · exact Or.inr (Or.inl rfl)
  · obtain ⟨⟨q⟩⟩ := c
    cases q
    · exact Or.inr (Or.inl rfl)
    · exact Or.inl ⟨_, rfl, rfl⟩
  · obtain ⟨⟨q⟩⟩ := c
    cases q
    · exact Or.inr (Or.inl rfl)
    · exact Or.inl ⟨_, rfl, rfl⟩

theorem drained_absent {K : Kind} {T : Type} (v : Payload K T) :
    (Option.drained v : Option K T).Absent := by
  cases K <;> rfl

theorem get_some {K : Kind} {T : Type} (v : Payload K T) :
    Storage.get K (Some v : Option K T).m_storage = .ok (v, (Option.drained v).m_storage) := by
  cases K <;> rfl

theorem cref_some {K : Kind} {T : Type} (v : Payload K T) :
    Storage.cref K (Some v : Option K T).m_storage = .ok v := by
  cases K <;> rfl

theorem ref_some {K : Kind} {T : Type} (v : Payload K T) :
    Storage.ref K (Some v : Option K T).m_storage = .ok v := by
  cases K <;> rfl

theorem ctor_move_some {K : Kind} {T : Type} (v : Payload K T) :
    ∃ c1, Option.ctor_move (Some v : Option K T) = .ok (Some v, c1) := by
  cases K
  · exact ⟨Option.drained v, rfl⟩
  · exact ⟨Some v, rfl⟩
  · exact ⟨Some v, rfl⟩

theorem is_some_some {K : Kind} {T : Type} (v : Payload K T) :
    (Some v : Option K T).is_some = true := by
  cases K <;> rfl

/-- C1. Round trip of `take`: on a Present container holding `v`, `take()` returns a Present
Option holding `v` and leaves the receiver Absent, and a second `take()` returns an Absent
Option and leaves it Absent; on an Absent container `take()` returns Absent and leaves it
Absent. -/
theorem take_round_trip (K : Kind) (T : Type) (c : Option K T) :
    (∀ v, c.Present v →
      ∃ r c1 r2 c2, c.take = .ok (r, c1) ∧ r.Present v ∧ c1.Absent ∧
        c1.take = .ok (r2, c2) ∧ r2.Absent ∧ c2.Absent) ∧
    (c.Absent → ∃ r c1, c.take = .ok (r, c1) ∧ r.Absent ∧ c1.Absent) := by
  constructor
  · intro v h
    obtain rfl := (present_iff c v).1 h
    refine ⟨Some v, Option.drained v, Option.ctor, Option.drained v, ?_, some_present v,
      drained_absent v, ?_, ctor_absent, drained_absent v⟩
    · cases K <;> rfl
    · cases K <;> rfl
  · intro h
    have hs := (absent_iff c).1 h
    exact ⟨Option.ctor, c, by simp [Option.take, hs, pure, Except.pure], ctor_absent, h⟩

/-- Witness of C1 on `Option<int> a = Some(5)`. -/
theorem take_round_trip_witness :
    (Some 5 : Option .Owned Int).Present 5 ∧
      ∃ r c1 r2 c2, (Some 5 : Option .Owned Int).take = .ok (r, c1) ∧ r.Present 5 ∧ c1.Absent ∧
        c1.take = .ok (r2, c2) ∧ r2.Absent ∧ c2.Absent :=
  ⟨some_present 5, (take_round_trip .Owned Int (Some 5)).1 5 (some_present 5)⟩

/-- C2. For a container holding `u`, or an Absent one, `replace(x)` returns an Option holding
what the container held before the call and leaves the container Present holding `x`. -/
theorem replace_returns_old (K : Kind) (T : Type) (c : Option K T) (x : Payload K T) :
    (∀ u, c.Present u → ∃ r c1, c.replace x = .ok (r, c1) ∧ r.Present u ∧ c1.Present x) ∧
    (c.Absent → ∃ r c1, c.replace x = .ok (r, c1) ∧ r.Absent ∧ c1.Present x) := by
  constructor
  · intro u h
    obtain rfl := (present_iff c u).1 h
    refine ⟨Some u, Some x, ?_, some_present u, some_present x⟩
    cases K <;> rfl
  · intro h
    refine ⟨Option.ctor, Some x, ?_, ctor_absent, some_present x⟩
    cases K
    · obtain ⟨⟨st, b⟩⟩ := c
      cases st
      · cases h
      · rfl
    · obtain ⟨⟨p⟩⟩ := c
      cases p
      · rfl
      · cases h
    · obtain ⟨⟨p⟩⟩ := c
      cases p
      · rfl
      · cases h

/-- Witness of C2: `Some(5).replace(4)` returns `Some(5)` and leaves `Some(4)`; on an empty
`Option<int>`, `replace(4)` returns an Absent Option and leaves `Some(4)`. -/
theorem replace_returns_old_witness :
    ((Some 5 : Option .Owned Int).Present 5 ∧
      ∃ r c1, (Some 5 : Option .Owned Int).replace 4 = .ok (r, c1) ∧ r.Present 5 ∧
        c1.Present 4) ∧
    ((Option.ctor : Option .Owned Int).Absent ∧
      ∃ r c1, (Option.ctor : Option .Owned Int).replace 4 = .ok (r, c1) ∧ r.Absent ∧
        c1.Present 4) :=
  ⟨⟨some_present 5, (replace_returns_old .Owned Int (Some 5) 4).1 5 (some_present 5)⟩,
    ⟨ctor_absent, (replace_returns_old .Owned Int Option.ctor 4).2 ctor_absent⟩⟩

/-- C3, as stated, fails: `Some(5).is_some_and(p)` leaves the receiver Absent, not Present
holding 5. -/
theorem is_some_and_keeps_receiver_counterexample :
    (Some 5 : Option .Owned Int).Present 5 ∧
      (Some 5 : Option .Owned Int).is_some_and (fun _ (e : Unit) => (true, e)) () =
        .ok (true, ⟨⟨.NONE, .obj 5⟩⟩, ()) ∧
      (⟨⟨.NONE, .obj 5⟩⟩ : Option .Owned Int).Absent ∧
      ¬ (⟨⟨.NONE, .obj 5⟩⟩ : Option .Owned Int).Present 5 :=
  ⟨some_present 5, rfl, rfl, fun h => (by cases h.1)⟩

/-- C3, amended. `is_some_and` consumes: on a Present receiver the call reads the payload
through `get()`, so the receiver is Absent after the call whatever the predicate answers; an
Absent receiver is left as it was. -/
theorem is_some_and_consumes (K : Kind) (T σ : Type) (c : Option K T)
    (p : Func σ (Payload K T) Bool) (env : σ) :
    (∀ v, c.Present v → ∃ b c1 env1, c.is_some_and p env = .ok (b, c1, env1) ∧ c1.Absent) ∧
    (c.Absent → ∃ b env1, c.is_some_and p env = .ok (b, c, env1)) := by
  constructor
  · intro v h
    obtain rfl := (present_iff c v).1 h
    refine ⟨(p v env).1, Option.drained v, (p v env).2, ?_, drained_absent v⟩
    cases K <;> rfl
  · intro h
    have hs := (absent_iff c).1 h
    exact ⟨false, env, by simp [Option.is_some_and, hs, pure, Except.pure]⟩

/-- Witness of the amended C3 on `Some(5)` with a predicate answering false. -/
theorem is_some_and_consumes_witness :
    (Some 5 : Option .Owned Int).Present 5 ∧
      ∃ b c1 env1, (Some 5 : Option .Owned Int).is_some_and (fun _ (e : Unit) => (false, e)) () =
        .ok (b, c1, env1) ∧ c1.Absent :=
  ⟨some_present 5,
    (is_some_and_consumes .Owned Int Unit (Some 5) (fun _ e => (false, e)) ()).1 5
      (some_present 5)⟩

/-- C4. The call `is_some_and(p)` returns (it does not fault) on every Present or Absent
container; it answers true exactly when the container is Present holding some `v` on which `p`
answers true; on a Present container `p` runs once, on the payload; on an Absent container
the answer is false and `p` is not run (the environment and the call log stay as they were). -/
theorem is_some_and_spec (K : Kind) (T σ : Type) (c : Option K T)
    (p : Func σ (Payload K T) Bool) (env : σ) :
    (∀ v, c.Present v →
      (∃ c1, c.is_some_and p env = .ok ((p v env).1, c1, (p v env).2)) ∧
      (∃ c1, c.is_some_and (logged p) (env, []) = .ok ((p v env).1, c1, ((p v env).2, [v])))) ∧
    (c.Absent →
      c.is_some_and p env = .ok (false, c, env) ∧
      c.is_some_and (logged p) (env, []) = .ok (false, c, (env, []))) ∧
    (∀ b c1 env1, c.is_some_and p env = .ok (b, c1, env1) →
      (b = true ↔ ∃ v, c.Present v ∧ (p v env).1 = true)) := by
  refine ⟨?_, ?_, ?_⟩
  · intro v h
    obtain rfl := (present_iff c v).1 h
    exact ⟨⟨Option.drained v, by cases K <;> rfl⟩, ⟨Option.drained v, by cases K <;> rfl⟩⟩
  · intro h
    have hs := (absent_iff c).1 h
    constructor <;> simp [Option.is_some_and, hs, pure, Except.pure]
  · intro b c1 env1 hrun
    rcases shape c with ⟨v, hv⟩ | ha | ⟨hs, e, he⟩
    · obtain rfl := (present_iff c v).1 hv
      have hrun2 : (Some v : Option K T).is_some_and p env =
          .ok ((p v env).1, Option.drained v, (p v env).2) := by cases K <;> rfl
      rw [hrun2] at hrun
      cases hrun
      constructor
      · intro hb; exact ⟨v, hv, hb⟩
      · rintro ⟨w, hw, hb⟩
        obtain rfl := present_unique _ hv hw
        exact hb
    · have hs2 := (absent_iff c).1 ha
      simp [Option.is_some_and, hs2, pure, Except.pure] at hrun
      obtain ⟨rfl, -, -⟩ := hrun
      constructor
      · intro h; cases h
      · rintro ⟨v, hv, -⟩
        rw [hv.1] at hs2
        cases hs2
    · simp [Option.is_some_and, hs, he, bind, Except.bind] at hrun

/-- Witness of C4: the four `is_some_and` cases of the test-suite. -/
theorem is_some_and_spec_witness :
    (Some 5 : Option .Owned Int).is_some_and (fun _ (e : Unit) => (true, e)) () =
        .ok (true, ⟨⟨.NONE, .obj 5⟩⟩, ()) ∧
    (Some 5 : Option .Owned Int).is_some_and (fun _ (e : Unit) => (false, e)) () =
        .ok (false, ⟨⟨.NONE, .obj 5⟩⟩, ()) ∧
    ((Option.ctor : Option .Owned Int).Absent ∧
      (Option.ctor : Option .Owned Int).is_some_and (fun _ (e : Unit) => (true, e)) () =
        .ok (false, Option.ctor, ()) ∧
      (Option.ctor : Option .Owned Int).is_some_and (logged (fun _ (e : Unit) => (true, e)))
        ((), []) = .ok (false, Option.ctor, ((), []))) :=
  ⟨rfl, rfl, ctor_absent,
    (is_some_and_spec .Owned Int Unit Option.ctor (fun _ e => (true, e)) ()).2.1 ctor_absent⟩

/-- C5, as stated, fails for the reference kinds: move-constructing from a Present
`Option<int &>` copies the address and leaves the source Present. -/
theorem move_empties_source_counterexample :
    (Some 7 : Option .MutRef Int).Present 7 ∧
      Option.ctor_move (Some 7 : Option .MutRef Int) = .ok (Some 7, Some 7) ∧
      ¬ (Some 7 : Option .MutRef Int).Absent ∧
      (Option.ctor : Option .MutRef Int).assign_move (.object (Some 7)) =
        .ok (Some 7, .object (Some 7)) :=
  ⟨some_present 7, rfl, present_not_absent _ 7 (some_present 7), rfl⟩

/-- C5, amended. Moving from a Present source, by the move constructor or by move assignment
from another object into a Present or Absent destination, makes the destination Present with
the payload of the source; the source is left Absent for the Owned kind and is left as it was
(Present, same address) for the reference kinds. Moving from an Absent source yields an Absent
destination and an Absent source. Move assignment of a container to itself changes nothing. -/
theorem move_transfers_payload (K : Kind) (T : Type) (src dst0 : Option K T)
    (hd : (∃ w, dst0.Present w) ∨ dst0.Absent) :
    (∀ v, src.Present v →
      (∃ dst src1, Option.ctor_move src = .ok (dst, src1) ∧ dst.Present v ∧
        (K = .Owned → src1.Absent) ∧ (K ≠ .Owned → src1 = src)) ∧
      (∃ dst src1, dst0.assign_move (.object src) = .ok (dst, .object src1) ∧ dst.Present v ∧
        (K = .Owned → src1.Absent) ∧ (K ≠ .Owned → src1 = src))) ∧
    (src.Absent →
      (∃ dst src1, Option.ctor_move src = .ok (dst, src1) ∧ dst.Absent ∧ src1.Absent) ∧
      (∃ dst src1, dst0.assign_move (.object src) = .ok (dst, .object src1) ∧ dst.Absent ∧
        src1.Absent)) ∧
    dst0.assign_move .self = .ok (dst0, .self) := by
  refine ⟨?_, ?_, ?_⟩
  · intro v h
    obtain rfl := (present_iff src v).1 h
    cases K
    · refine ⟨⟨Some v, Option.drained v, rfl, some_present v, fun _ => drained_absent v,
        fun h => absurd rfl h⟩, ?_⟩
      refine ⟨Some v, Option.drained v, ?_, some_present v, fun _ => drained_absent v,
        fun h => absurd rfl h⟩
      rcases hd with ⟨w, hw⟩ | ha
      · obtain rfl := (present_iff dst0 w).1 hw
        rfl
      · obtain ⟨⟨st, b⟩⟩ := dst0
        cases st
        · cases ha
        · rfl
    · exact ⟨⟨Some v, Some v, rfl, some_present v, fun h => (by cases h), fun _ => rfl⟩,
        ⟨Some v, Some v, rfl, some_present v, fun h => (by cases h), fun _ => rfl⟩⟩
    · exact ⟨⟨Some v, Some v, rfl, some_present v, fun h => (by cases h), fun _ => rfl⟩,
        ⟨Some v, Some v, rfl, some_present v, fun h => (by cases h), fun _ => rfl⟩⟩
  · intro h
    cases K
    · obtain ⟨⟨st, b⟩⟩ := src
      cases st
      · cases h
      · refine ⟨⟨Option.ctor, ⟨⟨.NONE, b⟩⟩, rfl, rfl, rfl⟩, ?_⟩
        rcases hd with ⟨w, hw⟩ | ha
        · obtain rfl := (present_iff dst0 w).1 hw
          exact ⟨Option.ctor, ⟨⟨.NONE, b⟩⟩, rfl, rfl, rfl⟩
        · obtain ⟨⟨st0, b0⟩⟩ := dst0
          cases st0
          · cases ha
          · exact ⟨⟨⟨.NONE, b0⟩⟩, ⟨⟨.NONE, b⟩⟩, rfl, rfl, rfl⟩
    · obtain ⟨⟨q⟩⟩ := src
      cases q
      · exact ⟨⟨Option.ctor, Option.ctor, rfl, rfl, rfl⟩, ⟨Option.ctor, Option.ctor, rfl, rfl, rfl⟩⟩
      · cases h
    · obtain ⟨⟨q⟩⟩ := src
      cases q
      · exact ⟨⟨Option.ctor, Option.ctor, rfl, rfl, rfl⟩, ⟨Option.ctor, Option.ctor, rfl, rfl, rfl⟩⟩
      · cases h
  · cases K <;> rfl

/-- Witness of the amended C5: `Option<int> b = std::move(a)` and `b = std::move(a)` on
`a = Some(5)`. -/
theorem move_transfers_payload_witness :
    ((∃ w, (Some 3 : Option .Owned Int).Present w) ∨ (Some 3 : Option .Owned Int).Absent) ∧
    (Some 5 : Option .Owned Int).Present 5 ∧
    (∃ dst src1, Option.ctor_move (Some 5 : Option .Owned Int) = .ok (dst, src1) ∧
      dst.Present 5 ∧ (Kind.Owned = .Owned → src1.Absent) ∧
      (Kind.Owned ≠ .Owned → src1 = Some 5)) ∧
    (∃ dst src1, (Some 3 : Option .Owned Int).assign_move (.object (Some 5)) =
        .ok (dst, .object src1) ∧ dst.Present 5 ∧ (Kind.Owned = .Owned → src1.Absent) ∧
      (Kind.Owned ≠ .Owned → src1 = Some 5)) :=
  ⟨Or.inl ⟨3, some_present 3⟩, some_present 5,
    (move_transfers_payload .Owned Int (Some 5) (Some 3) (Or.inl ⟨3, some_present 3⟩)).1 5
      (some_present 5)⟩

/-- C6. On a Present container holding `v`, `map(f)` returns a Present Option holding `f(v)`
and `f` runs once, on `v`; on an Absent container `map(f)` returns an Absent Option of the
target type and `f` is not run. -/
theorem map_spec (K J : Kind) (T U σ : Type) (c : Option K T)
    (f : Func σ (Payload K T) (Payload J U)) (env : σ) :
    (∀ v, c.Present v →
      (∃ r c1, c.map f env = .ok (r, c1, (f v env).2) ∧ r.Present (f v env).1) ∧
      (∃ r c1, c.map (logged f) (env, []) = .ok (r, c1, ((f v env).2, [v])) ∧
        r.Present (f v env).1)) ∧
    (c.Absent →
      (Option.ctor : Option J U).Absent ∧
      c.map f env = .ok (Option.ctor, c, env) ∧
      c.map (logged f) (env, []) = .ok (Option.ctor, c, (env, []))) := by
  constructor
  · intro v h
    obtain rfl := (present_iff c v).1 h
    exact ⟨⟨Some (f v env).1, Option.drained v, by cases K <;> rfl, some_present _⟩,
      ⟨Some (f v env).1, Option.drained v, by cases K <;> rfl, some_present _⟩⟩
  · intro h
    have hs := (absent_iff c).1 h
    refine ⟨ctor_absent, ?_, ?_⟩ <;> simp [Option.map, hs, pure, Except.pure]

/-- Witness of C6: `Some(5).map(f)` with `f` returning 2 is `Some(2)` with call log `[5]`;
on an empty `Option<int>` the result is Absent and the call log stays empty. -/
theorem map_spec_witness :
    ((Some 5 : Option .Owned Int).Present 5 ∧
      ∃ r c1, (Some 5 : Option .Owned Int).map (J := .Owned) (U := Nat)
          (logged (fun _ (e : Unit) => (2, e))) ((), []) = .ok (r, c1, ((), [5])) ∧
        r.Present 2) ∧
    ((Option.ctor : Option .Owned Int).Absent ∧
      (Option.ctor : Option .Owned Int).map (J := .Owned) (U := Nat)
          (logged (fun _ (e : Unit) => (2, e))) ((), []) =
        .ok (Option.ctor, Option.ctor, ((), []))) :=
  ⟨⟨some_present 5,
      ((map_spec .Owned .Owned Int Nat Unit (Some 5) (fun _ e => (2, e)) ()).1 5
        (some_present 5)).2⟩,
    ⟨ctor_absent,
      ((map_spec .Owned .Owned Int Nat Unit Option.ctor (fun _ e => (2, e)) ()).2
        ctor_absent).2.2⟩⟩

/-- C7. On a Present container holding `v`, `and_then(f)` returns exactly `f(v)` and `f` runs
once, on `v`; on an Absent container it returns an Absent Option and `f` is not run. -/
theorem and_then_spec (K J : Kind) (T U σ : Type) (c : Option K T)
    (f : Func σ (Payload K T) (Option J U)) (env : σ) :
    (∀ v, c.Present v →
      (∃ c1, c.and_then f env = .ok ((f v env).1, c1, (f v env).2)) ∧
      (∃ c1, c.and_then (logged f) (env, []) = .ok ((f v env).1, c1, ((f v env).2, [v])))) ∧
    (c.Absent →
      (Option.ctor : Option J U).Absent ∧
      c.and_then f env = .ok (Option.ctor, c, env) ∧
      c.and_then (logged f) (env, []) = .ok (Option.ctor, c, (env, []))) := by
  constructor
  · intro v h
    obtain rfl := (present_iff c v).1 h
    exact ⟨⟨Option.drained v, by cases K <;> rfl⟩, ⟨Option.drained v, by cases K <;> rfl⟩⟩
  · intro h
    have hs := (absent_iff c).1 h
    refine ⟨ctor_absent, ?_, ?_⟩ <;> simp [Option.and_then, hs, pure, Except.pure]

/-- Witness of C7: `and_then` on `Some(5)` with `f` returning `Some(2)`, and with `f`
returning an empty Option. -/
theorem and_then_spec_witness :
    (Some 5 : Option .Owned Int).Present 5 ∧
    (∃ c1, (Some 5 : Option .Owned Int).and_then
        (fun _ (e : Unit) => ((Some 2 : Option .Owned Nat), e)) () = .ok (Some 2, c1, ())) ∧
    (∃ c1, (Some 5 : Option .Owned Int).and_then
        (logged (fun _ (e : Unit) => ((Option.ctor : Option .Owned Nat), e))) ((), []) =
          .ok (Option.ctor, c1, ((), [5]))) :=
  ⟨some_present 5,
    ((and_then_spec .Owned .Owned Int Nat Unit (Some 5) (fun _ e => (Some 2, e)) ()).1 5
      (some_present 5)).1,
    ((and_then_spec .Owned .Owned Int Nat Unit (Some 5) (fun _ e => (Option.ctor, e)) ()).1 5
      (some_present 5)).2⟩

/-- C8. The call `filter(p)` returns a Present Option holding `v` exactly when the container
is Present holding `v` and `p(v)` is true; when the container is Present and `p(v)` is false,
or the container is Absent, it returns Absent. `p` runs once, on `v`, when the container is
Present, and is not run when it is Absent. -/
theorem filter_spec (K : Kind) (T σ : Type) (c : Option K T)
    (p : Func σ (Payload K T) Bool) (env : σ) :
    (∀ v, c.Present v →
      (∃ r c1, c.filter p env = .ok (r, c1, (p v env).2) ∧
        ((p v env).1 = true → r.Present v) ∧ ((p v env).1 = false → r.Absent)) ∧
      (∃ r c1, c.filter (logged p) (env, []) = .ok (r, c1, ((p v env).2, [v])))) ∧
    (c.Absent →
      (Option.ctor : Option K T).Absent ∧
      c.filter p env = .ok (Option.ctor, c, env) ∧
      c.filter (logged p) (env, []) = .ok (Option.ctor, c, (env, []))) ∧
    (∀ r c1 env1 v, c.filter p env = .ok (r, c1, env1) →
      (r.Present v ↔ c.Present v ∧ (p v env).1 = true)) := by
  have hsome : ∀ (τ : Type) (q : Func τ (Payload K T) Bool) (e : τ) (v : Payload K T),
      (q v e).1 = true → ∃ c1, (Some v : Option K T).filter q e = .ok (Some v, c1, (q v e).2) := by
    intro τ q e v hq
    obtain ⟨c1, h1⟩ := ctor_move_some (K := K) (T := T) v
    exact ⟨c1, by simp [Option.filter, is_some_some, cref_some, bind, Except.bind, hq, h1,
      Functor.map, Except.map, pure, Except.pure]⟩
  have hnone : ∀ (τ : Type) (q : Func τ (Payload K T) Bool) (e : τ) (v : Payload K T),
      (q v e).1 = false →
        (Some v : Option K T).filter q e = .ok (Option.ctor, Some v, (q v e).2) := by
    intro τ q e v hq
    simp [Option.filter, is_some_some, cref_some, bind, Except.bind, hq, pure, Except.pure]
  refine ⟨?_, ?_, ?_⟩
  · intro v h
    obtain rfl := (present_iff c v).1 h
    constructor
    · cases hb : (p v env).1
      · exact ⟨Option.ctor, Some v, hnone σ p env v hb, fun h => (by cases h),
          fun _ => ctor_absent⟩
      · obtain ⟨c1, h1⟩ := hsome σ p env v hb
        exact ⟨Some v, c1, h1, fun _ => some_present v, fun h => (by cases h)⟩
    · cases hb : (p v env).1
      · exact ⟨Option.ctor, Some v, hnone _ (logged p) (env, []) v hb⟩
      · obtain ⟨c1, h1⟩ := hsome _ (logged p) (env, []) v hb
        exact ⟨Some v, c1, h1⟩
  · intro h
    have hs := (absent_iff c).1 h
    refine ⟨ctor_absent, ?_, ?_⟩ <;> simp [Option.filter, hs, pure, Except.pure]
  · intro r c1 env1 v hrun
    rcases shape c with ⟨w, hw⟩ | ha | ⟨hs, e, he⟩
    · obtain rfl := (present_iff c w).1 hw
      cases hb : (p w env).1
      · rw [hnone σ p env w hb] at hrun
        cases hrun
        constructor
        · intro h; exact absurd ctor_absent (present_not_absent _ v h)
        · rintro ⟨h, hp⟩
          obtain rfl := present_unique _ hw h
          rw [hb] at hp
          cases hp
      · obtain ⟨c2, h2⟩ := hsome σ p env w hb
        rw [h2] at hrun
        cases hrun
        constructor
        · intro h
          obtain rfl := present_unique _ hw h
          exact ⟨hw, hb⟩
        · rintro ⟨h, -⟩
          exact h
    · have hs := (absent_iff c).1 ha
      simp [Option.filter, hs, pure, Except.pure] at hrun
      obtain ⟨rfl, -, -⟩ := hrun
      constructor
      · intro h; exact absurd ctor_absent (present_not_absent _ v h)
      · rintro ⟨h, -⟩
        exact absurd ha (present_not_absent _ v h)
    · have hc : ∃ e, Storage.cref K c.m_storage = .error e := by
        cases K
        · obtain ⟨⟨st, bf⟩⟩ := c
          cases bf
          · exact ⟨_, rfl⟩
          · cases st <;> cases he
        · obtain ⟨⟨q⟩⟩ := c
          cases q
          · exact ⟨_, rfl⟩
          · cases he
        · obtain ⟨⟨q⟩⟩ := c
          cases q
          · exact ⟨_, rfl⟩
          · cases he
      obtain ⟨e2, he2⟩ := hc
      simp [Option.filter, hs, he2, bind, Except.bind] at hrun

/-- Witness of C8: the three `filter` cases of the test-suite, with the call log. -/
theorem filter_spec_witness :
    ((Some 5 : Option .Owned Int).Present 5 ∧
      ∃ r c1, (Some 5 : Option .Owned Int).filter (fun _ (e : Unit) => (true, e)) () =
          .ok (r, c1, ()) ∧
        ((true = true) → r.Present 5) ∧ ((true = false) → r.Absent)) ∧
    ((Some 5 : Option .Owned Int).Present 5 ∧
      ∃ r c1, (Some 5 : Option .Owned Int).filter (logged (fun _ (e : Unit) => (false, e)))
          ((), []) = .ok (r, c1, ((), [5]))) ∧
    ((Option.ctor : Option .Owned Int).Absent ∧
      (Option.ctor : Option .Owned Int).filter (logged (fun _ (e : Unit) => (true, e)))
          ((), []) = .ok (Option.ctor, Option.ctor, ((), []))) :=
  ⟨⟨some_present 5,
      ((filter_spec .Owned Int Unit (Some 5) (fun _ e => (true, e)) ()).1 5
        (some_present 5)).1⟩,
    ⟨some_present 5,
      ((filter_spec .Owned Int Unit (Some 5) (fun _ e => (false, e)) ()).1 5
        (some_present 5)).2⟩,
    ⟨ctor_absent,
      ((filter_spec .Owned Int Unit Option.ctor (fun _ e => (true, e)) ()).2.1
        ctor_absent).2.2⟩⟩

/-- C9, as stated, fails: on `Some(5)`, a predicate that writes 6 through the `int &` it is
handed and answers false leaves the receiver Present holding 6, not 5. -/
theorem take_if_keeps_payload_counterexample :
    (Some 5 : Option .Owned Int).Present 5 ∧
      (Some 5 : Option .Owned Int).take_if (fun _ (e : Unit) => ((false, 6), e)) () =
        .ok (Option.ctor, Some 6, ()) ∧
      ¬ (Some 6 : Option .Owned Int).Present 5 ∧
      (Some 6 : Option .Owned Int) ≠ Some 5 := by
  refine ⟨some_present 5, rfl, ?_, ?_⟩
  · intro h
    have h6 : (6 : Int) = 5 := present_unique _ (some_present 6) h
    omega
  · intro h
    have h6 : (6 : Int) = 5 := present_unique _ (some_present 6) ((present_iff _ _).2 h)
    omega

/-- C9, amended. On a Present container holding `v`, `take_if(p)` hands `p` a mutable handle
to the payload; let `w` be the payload after the call of `p` (it is `v` for the reference
kinds, and for a `p` that does not write through its handle). If `p` answers true, `take_if`
returns Present holding `w` and leaves the receiver Absent; if `p` answers false, it returns
an Absent Option and leaves the receiver Present holding `w` (the receiver is unchanged when
`w` is `v`). On an Absent container it returns an Absent Option, leaves the receiver
unchanged, and `p` is not run. -/
theorem take_if_spec (K : Kind) (T σ : Type) (c : Option K T)
    (p : FuncMut σ (Payload K T) Bool) (env : σ) :
    (∀ v, c.Present v →
      ∃ w, Storage.cref K (Storage.ref_store K c.m_storage (p v env).1.2) = .ok w ∧
        (K ≠ .Owned → w = v) ∧ ((p v env).1.2 = v → w = v) ∧
        ((p v env).1.1 = true →
          ∃ r c1, c.take_if p env = .ok (r, c1, (p v env).2) ∧ r.Present w ∧ c1.Absent) ∧
        ((p v env).1.1 = false →
          ∃ r c1, c.take_if p env = .ok (r, c1, (p v env).2) ∧ r.Absent ∧ c1.Present w ∧
            (w = v → c1 = c))) ∧
    (c.Absent →
      (Option.ctor : Option K T).Absent ∧
      c.take_if p env = .ok (Option.ctor, c, env) ∧
      c.take_if (loggedMut p) (env, []) = .ok (Option.ctor, c, (env, []))) := by
  constructor
  · intro v h
    obtain rfl := (present_iff c v).1 h
    cases K
    · refine ⟨(p v env).1.2, rfl, fun h => absurd rfl h, fun h => h, ?_, ?_⟩
      · intro hb
        refine ⟨Some (p v env).1.2, Option.drained (p v env).1.2, ?_, some_present _,
          drained_absent _⟩
        simp [Option.take_if, is_some_some, ref_some, bind, Except.bind, hb]
        rfl
      · intro hb
        refine ⟨Option.ctor, Some (p v env).1.2, ?_, ctor_absent, some_present _, ?_⟩
        · simp [Option.take_if, is_some_some, ref_some, bind, Except.bind, hb]
          rfl
        · intro hw; rw [hw]
    · refine ⟨v, rfl, fun _ => rfl, fun _ => rfl, ?_, ?_⟩
      · intro hb
        refine ⟨Some v, Option.drained v, ?_, some_present _, drained_absent _⟩
        simp [Option.take_if, is_some_some, ref_some, bind, Except.bind, hb]
        rfl
      · intro hb
        refine ⟨Option.ctor, Some v, ?_, ctor_absent, some_present _, fun _ => rfl⟩
        simp [Option.take_if, is_some_some, ref_some, bind, Except.bind, hb]
        rfl
    · refine ⟨v, rfl, fun _ => rfl, fun _ => rfl, ?_, ?_⟩
      · intro hb
        refine ⟨Some v, Option.drained v, ?_, some_present _, drained_absent _⟩
        simp [Option.take_if, is_some_some, ref_some, bind, Except.bind, hb]
        rfl
      · intro hb
        refine ⟨Option.ctor, Some v, ?_, ctor_absent, some_present _, fun _ => rfl⟩
        simp [Option.take_if, is_some_some, ref_some, bind, Except.bind, hb]
        rfl
  · intro h
    have hs := (absent_iff c).1 h
    refine ⟨ctor_absent, ?_, ?_⟩ <;> simp [Option.take_if, hs, pure, Except.pure]

/-- Witness of the amended C9: the `take_if` cases of the test-suite on `Some(5)` with
predicates that do not write, and on an empty `Option<int>`. -/
theorem take_if_spec_witness :
    ((Some 5 : Option .Owned Int).Present 5 ∧
      ∃ w, Storage.cref .Owned (Storage.ref_store .Owned (Some 5 : Option .Owned Int).m_storage
          5) = .ok w ∧
        (Kind.Owned ≠ .Owned → w = 5) ∧ ((5 : Int) = 5 → w = 5) ∧
        (true = true →
          ∃ r c1, (Some 5 : Option .Owned Int).take_if (fun v (e : Unit) => ((true, v), e)) () =
            .ok (r, c1, ()) ∧ r.Present w ∧ c1.Absent) ∧
        (true = false →
          ∃ r c1, (Some 5 : Option .Owned Int).take_if (fun v (e : Unit) => ((true, v), e)) () =
            .ok (r, c1, ()) ∧ r.Absent ∧ c1.Present w ∧ (w = 5 → c1 = Some 5))) ∧
    ((Option.ctor : Option .Owned Int).Absent ∧
      (Option.ctor : Option .Owned Int).take_if (loggedMut (fun v (e : Unit) => ((true, v), e)))
        ((), []) = .ok (Option.ctor, Option.ctor, ((), []))) :=
  ⟨⟨some_present 5,
      (take_if_spec .Owned Int Unit (Some 5) (fun v e => ((true, v), e)) ()).1 5
        (some_present 5)⟩,
    ⟨ctor_absent,
      ((take_if_spec .Owned Int Unit Option.ctor (fun v e => ((true, v), e)) ()).2
        ctor_absent).2.2⟩⟩

/-- C10. The call `a.xor_(b)` returns the content of the one that is Present when exactly one
of `a`, `b` is Present, and returns an Absent Option when both are Present or both are
Absent. -/
theorem xor_spec (K : Kind) (T : Type) (a b : Option K T) :
    (∀ v, a.Present v → b.Absent → ∃ r a1, a.xor_ b = .ok (r, a1) ∧ r.Present v) ∧
    (∀ w, a.Absent → b.Present w → ∃ r a1, a.xor_ b = .ok (r, a1) ∧ r.Present w) ∧
    (∀ v w, a.Present v → b.Present w → ∃ r a1, a.xor_ b = .ok (r, a1) ∧ r.Absent) ∧
    (a.Absent → b.Absent → ∃ r a1, a.xor_ b = .ok (r, a1) ∧ r.Absent) := by
  refine ⟨?_, ?_, ?_, ?_⟩
  · intro v ha hb
    obtain rfl := (present_iff a v).1 ha
    have hbs := (absent_iff b).1 hb
    obtain ⟨c1, h1⟩ := ctor_move_some (K := K) (T := T) v
    exact ⟨Some v, c1, by simp [Option.xor_, is_some_some, hbs, h1], some_present v⟩
  · intro w ha hb
    obtain rfl := (present_iff b w).1 hb
    have has := (absent_iff a).1 ha
    obtain ⟨c1, h1⟩ := ctor_move_some (K := K) (T := T) w
    exact ⟨Some w, a, by simp [Option.xor_, is_some_some, has, h1, bind, Except.bind, pure,
      Except.pure], some_present w⟩
  · intro v w ha hb
    obtain rfl := (present_iff a v).1 ha
    obtain rfl := (present_iff b w).1 hb
    exact ⟨Option.ctor, Some v, by simp [Option.xor_, is_some_some, pure, Except.pure],
      ctor_absent⟩
  · intro ha hb
    have has := (absent_iff a).1 ha
    have hbs := (absent_iff b).1 hb
    exact ⟨Option.ctor, a, by simp [Option.xor_, has, hbs, pure, Except.pure], ctor_absent⟩

/-- Witness of C10: the `xor_` cases of the test-suite on `Option<int>`. -/
theorem xor_spec_witness :
    ((Some 5 : Option .Owned Int).Present 5 ∧ (Option.ctor : Option .Owned Int).Absent ∧
      ∃ r a1, (Some 5 : Option .Owned Int).xor_ Option.ctor = .ok (r, a1) ∧ r.Present 5) ∧
    ((Option.ctor : Option .Owned Int).Absent ∧ (Some 4 : Option .Owned Int).Present 4 ∧
      ∃ r a1, (Option.ctor : Option .Owned Int).xor_ (Some 4) = .ok (r, a1) ∧ r.Present 4) ∧
    ((Some 5 : Option .Owned Int).Present 5 ∧ (Some 4 : Option .Owned Int).Present 4 ∧
      ∃ r a1, (Some 5 : Option .Owned Int).xor_ (Some 4) = .ok (r, a1) ∧ r.Absent) ∧
    ((Option.ctor : Option .Owned Int).Absent ∧
      ∃ r a1, (Option.ctor : Option .Owned Int).xor_ Option.ctor = .ok (r, a1) ∧ r.Absent) :=
  ⟨⟨some_present 5, ctor_absent,
      (xor_spec .Owned Int (Some 5) Option.ctor).1 5 (some_present 5) ctor_absent⟩,
    ⟨ctor_absent, some_present 4,
      (xor_spec .Owned Int Option.ctor (Some 4)).2.1 4 ctor_absent (some_present 4)⟩,
    ⟨some_present 5, some_present 4,
      (xor_spec .Owned Int (Some 5) (Some 4)).2.2.1 5 4 (some_present 5) (some_present 4)⟩,
    ⟨ctor_absent, (xor_spec .Owned Int Option.ctor Option.ctor).2.2.2 ctor_absent ctor_absent⟩⟩

/-! The fallback and insertion operations. -/

theorem ctor_move_absent {K : Kind} {T : Type} (c : Option K T) (h : c.Absent) :
    Option.ctor_move c = .ok (Option.ctor, c) := by
  cases K
  · obtain ⟨⟨st, b⟩⟩ := c
    cases st
    · cases h
    · rfl
  · obtain ⟨⟨q⟩⟩ := c
    cases q
    · rfl
    · cases h
  · obtain ⟨⟨q⟩⟩ := c
    cases q
    · rfl
    · cases h

theorem insert_eval {K : Kind} {T : Type} (c : Option K T) (x : Payload K T)
    (hc : (∃ u, c.Present u) ∨ c.Absent) : c.insert x = .ok (x, Some x) := by
  rcases hc with ⟨u, hu⟩ | ha
  · obtain rfl := (present_iff c u).1 hu
    cases K <;> rfl
  · cases K
    · obtain ⟨⟨st, b⟩⟩ := c
      cases st
      · cases ha
      · rfl
    · obtain ⟨⟨q⟩⟩ := c
      cases q
      · rfl
      · cases ha
    · obtain ⟨⟨q⟩⟩ := c
      cases q
      · rfl
      · cases ha

/-- C11. If `a` is Present holding `v`, `a.or_(b)` returns Present holding `v` whatever `b`
is; if `a` is Absent, `a.or_(b)` returns the content of `b`: Present holding `w` when `b` is,
Absent when `b` is. -/
theorem or_spec (K : Kind) (T : Type) (a b : Option K T) :
    (∀ v, a.Present v → ∃ r a1, a.or_ b = .ok (r, a1) ∧ r.Present v) ∧
    (a.Absent →
      (∀ w, b.Present w → ∃ r a1, a.or_ b = .ok (r, a1) ∧ r.Present w) ∧
      (b.Absent → ∃ r a1, a.or_ b = .ok (r, a1) ∧ r.Absent)) := by
  constructor
  · intro v ha
    obtain rfl := (present_iff a v).1 ha
    obtain ⟨c1, h1⟩ := ctor_move_some (K := K) (T := T) v
    exact ⟨Some v, c1, by simp [Option.or_, is_some_some, h1], some_present v⟩
  · intro ha
    have has := (absent_iff a).1 ha
    constructor
    · intro w hb
      obtain rfl := (present_iff b w).1 hb
      obtain ⟨c1, h1⟩ := ctor_move_some (K := K) (T := T) w
      exact ⟨Some w, a, by simp [Option.or_, has, h1, bind, Except.bind, pure, Except.pure],
        some_present w⟩
    · intro hb
      exact ⟨Option.ctor, a, by simp [Option.or_, has, ctor_move_absent b hb, bind, Except.bind,
        pure, Except.pure], ctor_absent⟩

/-- Witness of C11: the two `or_` cases of the test-suite on `Option<int>`. -/
theorem or_spec_witness :
    ((Some 5 : Option .Owned Int).Present 5 ∧
      ∃ r a1, (Some 5 : Option .Owned Int).or_ (Some 4) = .ok (r, a1) ∧ r.Present 5) ∧
    ((Option.ctor : Option .Owned Int).Absent ∧ (Some 4 : Option .Owned Int).Present 4 ∧
      ∃ r a1, (Option.ctor : Option .Owned Int).or_ (Some 4) = .ok (r, a1) ∧ r.Present 4) :=
  ⟨⟨some_present 5, (or_spec .Owned Int (Some 5) (Some 4)).1 5 (some_present 5)⟩,
    ⟨ctor_absent, some_present 4,
      ((or_spec .Owned Int Option.ctor (Some 4)).2 ctor_absent).1 4 (some_present 4)⟩⟩

/-- C12. If the container is Present holding `v`, `or_else(t)` returns Present holding `v` and
`t` is not run; if it is Absent, `or_else(t)` returns exactly the result of `t()` and `t` is
run once. -/
theorem or_else_spec (K : Kind) (T σ : Type) (c : Option K T) (t : Thunk σ (Option K T))
    (env : σ) :
    (∀ v, c.Present v →
      (∃ r c1, c.or_else t env = .ok (r, c1, env) ∧ r.Present v) ∧
      (∃ r c1, c.or_else (counted t) (env, 0) = .ok (r, c1, (env, 0)) ∧ r.Present v)) ∧
    (c.Absent →
      c.or_else t env = .ok ((t env).1, c, (t env).2) ∧
      c.or_else (counted t) (env, 0) = .ok ((t env).1, c, ((t env).2, 1))) := by
  constructor
  · intro v h
    obtain rfl := (present_iff c v).1 h
    obtain ⟨c1, h1⟩ := ctor_move_some (K := K) (T := T) v
    exact ⟨⟨Some v, c1, by simp [Option.or_else, is_some_some, h1, bind, Except.bind, pure,
        Except.pure], some_present v⟩,
      ⟨Some v, c1, by simp [Option.or_else, is_some_some, h1, bind, Except.bind, pure,
        Except.pure], some_present v⟩⟩
  · intro h
    have hs := (absent_iff c).1 h
    constructor <;> simp [Option.or_else, hs, pure, Except.pure, counted]

/-- Witness of C12: the two `or_else` cases of the test-suite on `Option<int>`, with the call
count of the thunk. -/
theorem or_else_spec_witness :
    ((Some 5 : Option .Owned Int).Present 5 ∧
      ∃ r c1, (Some 5 : Option .Owned Int).or_else
          (counted (fun (e : Unit) => ((Some 4 : Option .Owned Int), e))) ((), 0) =
            .ok (r, c1, ((), 0)) ∧ r.Present 5) ∧
    ((Option.ctor : Option .Owned Int).Absent ∧
      (Option.ctor : Option .Owned Int).or_else
          (counted (fun (e : Unit) => ((Some 4 : Option .Owned Int), e))) ((), 0) =
        .ok (Some 4, Option.ctor, ((), 1))) :=
  ⟨⟨some_present 5,
      ((or_else_spec .Owned Int Unit (Some 5) (fun e => (Some 4, e)) ()).1 5
        (some_present 5)).2⟩,
    ⟨ctor_absent,
      ((or_else_spec .Owned Int Unit Option.ctor (fun e => (Some 4, e)) ()).2 ctor_absent).2⟩⟩

/-- C13. If `a` is Present, `a.and_(b)` returns `b` as it is: Present holding `w` when `b` is,
Absent when `b` is; if `a` is Absent, `a.and_(b)` returns an Absent `Option<U>` whatever `b`
is. -/
theorem and_spec (K J : Kind) (T U : Type) (a : Option K T) (b : Option J U) :
    (∀ v, a.Present v →
      (∀ w, b.Present w → ∃ r a1, a.and_ b = .ok (r, a1) ∧ r.Present w) ∧
      (b.Absent → ∃ r a1, a.and_ b = .ok (r, a1) ∧ r.Absent)) ∧
    (a.Absent → ∃ r a1, a.and_ b = .ok (r, a1) ∧ r.Absent) := by
  constructor
  · intro v ha
    constructor
    · intro w hb
      obtain rfl := (present_iff b w).1 hb
      obtain ⟨c1, h1⟩ := ctor_move_some (K := J) (T := U) w
      exact ⟨Some w, a, by simp [Option.and_, ha.1, h1, bind, Except.bind, pure, Except.pure],
        some_present w⟩
    · intro hb
      exact ⟨Option.ctor, a, by simp [Option.and_, ha.1, ctor_move_absent b hb, bind,
        Except.bind, pure, Except.pure], ctor_absent⟩
  · intro ha
    have has := (absent_iff a).1 ha
    exact ⟨Option.ctor, a, by simp [Option.and_, has, pure, Except.pure], ctor_absent⟩

/-- Witness of C13: the two `and_` cases of the test-suite. -/
theorem and_spec_witness :
    ((Some 5 : Option .Owned Int).Present 5 ∧ (Some 2 : Option .Owned Nat).Present 2 ∧
      ∃ r a1, (Some 5 : Option .Owned Int).and_ (Some 2 : Option .Owned Nat) = .ok (r, a1) ∧
        r.Present 2) ∧
    ((Option.ctor : Option .Owned Int).Absent ∧
      ∃ r a1, (Option.ctor : Option .Owned Int).and_ (Some 2 : Option .Owned Nat) =
        .ok (r, a1) ∧ r.Absent) :=
  ⟨⟨some_present 5, some_present 2,
      ((and_spec .Owned .Owned Int Nat (Some 5) (Some 2)).1 5 (some_present 5)).1 2
        (some_present 2)⟩,
    ⟨ctor_absent, (and_spec .Owned .Owned Int Nat Option.ctor (Some 2)).2 ctor_absent⟩⟩

/-- C14, as stated, fails: `Some(5).and_(Some(2))` returns `Some(2)` and leaves the receiver
Present holding 5, not Absent. -/
theorem and_consumes_counterexample :
    (Some 5 : Option .Owned Int).Present 5 ∧
      (Some 5 : Option .Owned Int).and_ (Some 2 : Option .Owned Nat) = .ok (Some 2, Some 5) ∧
      ¬ (Some 5 : Option .Owned Int).Absent :=
  ⟨some_present 5, rfl, present_not_absent _ 5 (some_present 5)⟩

/-- C14, amended. `and_` does not consume: it only asks the receiver `is_some()`, so for every
receiver `a` and every Present or Absent `b` the call returns and `a` is after the call what
it was before; a Present `a` still holds its value. -/
theorem and_keeps_receiver (K J : Kind) (T U : Type) (a : Option K T) (b : Option J U)
    (hb : (∃ w, b.Present w) ∨ b.Absent) :
    (∃ r, a.and_ b = .ok (r, a)) ∧
    (∀ v, a.Present v → ∃ r a1, a.and_ b = .ok (r, a1) ∧ a1.Present v) := by
  have h1 : ∃ r, a.and_ b = .ok (r, a) := by
    cases hs : a.is_some
    · exact ⟨Option.ctor, by simp [Option.and_, hs, pure, Except.pure]⟩
    · rcases hb with ⟨w, hw⟩ | hb
      · obtain rfl := (present_iff b w).1 hw
        obtain ⟨c1, h1⟩ := ctor_move_some (K := J) (T := U) w
        exact ⟨Some w, by simp [Option.and_, hs, h1, bind, Except.bind, pure, Except.pure]⟩
      · exact ⟨Option.ctor, by simp [Option.and_, hs, ctor_move_absent b hb, bind, Except.bind,
          pure, Except.pure]⟩
  refine ⟨h1, fun v hv => ?_⟩
  obtain ⟨r, hr⟩ := h1
  exact ⟨r, a, hr, hv⟩

/-- Witness of the amended C14 on `Option<int &> a = Some(value)` and `a.and_(Some(2.0))`. -/
theorem and_keeps_receiver_witness :
    ((∃ w, (Some 2 : Option .Owned Nat).Present w) ∨ (Some 2 : Option .Owned Nat).Absent) ∧
    (∃ r, (Some 7 : Option .MutRef Int).and_ (Some 2 : Option .Owned Nat) =
      .ok (r, Some 7)) ∧
    (∀ v, (Some 7 : Option .MutRef Int).Present v →
      ∃ r a1, (Some 7 : Option .MutRef Int).and_ (Some 2 : Option .Owned Nat) = .ok (r, a1) ∧
        a1.Present v) :=
  ⟨Or.inl ⟨2, some_present 2⟩,
    and_keeps_receiver .MutRef .Owned Int Nat (Some 7) (Some 2) (Or.inl ⟨2, some_present 2⟩)⟩

/-- C15. For a container in any prior state (Absent, or Present holding any `u`) and every
`x`, `insert(x)` leaves the container Present holding `x` and returns the handle `ref()` of
the stored payload: what is read through it is `x` (for the reference kinds, the address of
`x`). -/
theorem insert_spec (K : Kind) (T : Type) (c : Option K T) (x : Payload K T)
    (hc : (∃ u, c.Present u) ∨ c.Absent) :
    ∃ h c1, c.insert x = .ok (h, c1) ∧ c1.Present x ∧ h = x ∧
      Storage.ref K c1.m_storage = .ok h :=
  ⟨x, Some x, insert_eval c x hc, some_present x, rfl, ref_some x⟩

/-- Witness of C15: `insert(5)` into `Some(4)` and into an empty `Option<int>`, and
`insert(value)` into an empty `Option<int &>`. -/
theorem insert_spec_witness :
    (((∃ u, (Some 4 : Option .Owned Int).Present u) ∨ (Some 4 : Option .Owned Int).Absent) ∧
      ∃ h c1, (Some 4 : Option .Owned Int).insert 5 = .ok (h, c1) ∧ c1.Present 5 ∧ h = 5 ∧
        Storage.ref .Owned c1.m_storage = .ok h) ∧
    (Option.ctor : Option .Owned Int).insert 5 = .ok (5, Some 5) ∧
    (Option.ctor : Option .MutRef Int).insert 9 = .ok (9, Some 9) :=
  ⟨⟨Or.inl ⟨4, some_present 4⟩,
      insert_spec .Owned Int (Some 4) 5 (Or.inl ⟨4, some_present 4⟩)⟩, rfl, rfl⟩

/-- C16. If the container is Present holding `v`, `get_or_insert(x)` returns a handle to `v`
and leaves the container as it was (`x` is not stored); if it is Absent, `get_or_insert(x)`
stores `x`, returns a handle to `x` and leaves the container Present holding `x`. The
container is Present after the call in both cases. -/
theorem get_or_insert_spec (K : Kind) (T : Type) (c : Option K T) (x : Payload K T) :
    (∀ v, c.Present v →
      c.get_or_insert x = .ok (v, c) ∧ Storage.ref K c.m_storage = .ok v) ∧
    (c.Absent →
      ∃ c1, c.get_or_insert x = .ok (x, c1) ∧ c1.Present x ∧
        Storage.ref K c1.m_storage = .ok x) ∧
    (((∃ u, c.Present u) ∨ c.Absent) →
      ∃ h c1 w, c.get_or_insert x = .ok (h, c1) ∧ c1.Present w) := by
  have hP : ∀ v, c.Present v →
      c.get_or_insert x = .ok (v, c) ∧ Storage.ref K c.m_storage = .ok v := by
    intro v h
    obtain rfl := (present_iff c v).1 h
    exact ⟨by simp [Option.get_or_insert, is_some_some, ref_some, bind, Except.bind, pure,
      Except.pure], ref_some v⟩
  have hA : c.Absent →
      ∃ c1, c.get_or_insert x = .ok (x, c1) ∧ c1.Present x ∧
        Storage.ref K c1.m_storage = .ok x := by
    intro h
    have hs := (absent_iff c).1 h
    exact ⟨Some x, by simp [Option.get_or_insert, hs, insert_eval c x (Or.inr h)],
      some_present x, ref_some x⟩
  refine ⟨hP, hA, ?_⟩
  rintro (⟨u, hu⟩ | ha)
  · exact ⟨u, c, u, (hP u hu).1, hu⟩
  · obtain ⟨c1, h1, h2, -⟩ := hA ha
    exact ⟨x, c1, x, h1, h2⟩

/-- Witness of C16: the two `get_or_insert` cases of the test-suite. -/
theorem get_or_insert_spec_witness :
    ((Some 5 : Option .Owned Int).Present 5 ∧
      (Some 5 : Option .Owned Int).get_or_insert 4 = .ok (5, Some 5) ∧
      Storage.ref .Owned (Some 5 : Option .Owned Int).m_storage = .ok 5) ∧
    ((Option.ctor : Option .Owned Int).Absent ∧
      ∃ c1, (Option.ctor : Option .Owned Int).get_or_insert 4 = .ok (4, c1) ∧ c1.Present 4 ∧
        Storage.ref .Owned c1.m_storage = .ok 4) :=
  ⟨⟨some_present 5, (get_or_insert_spec .Owned Int (Some 5) 4).1 5 (some_present 5)⟩,
    ⟨ctor_absent, (get_or_insert_spec .Owned Int Option.ctor 4).2.1 ctor_absent⟩⟩

/-- C17. If the container is Absent, `get_or_insert_with(t)` runs `t` once, stores its result
`r`, returns a handle to `r` and leaves the container Present holding `r`; if the container is
Present holding `v`, `t` is not run, the handle returned refers to `v` and the container is
as it was. -/
theorem get_or_insert_with_spec (K : Kind) (T σ : Type) (c : Option K T)
    (t : Thunk σ (Payload K T)) (env : σ) :
    (c.Absent →
      ∃ c1, c.get_or_insert_with t env = .ok ((t env).1, c1, (t env).2) ∧
        c.get_or_insert_with (counted t) (env, 0) = .ok ((t env).1, c1, ((t env).2, 1)) ∧
        c1.Present (t env).1 ∧ Storage.ref K c1.m_storage = .ok (t env).1) ∧
    (∀ v, c.Present v →
      c.get_or_insert_with t env = .ok (v, c, env) ∧
      c.get_or_insert_with (counted t) (env, 0) = .ok (v, c, (env, 0)) ∧
      Storage.ref K c.m_storage = .ok v) := by
  have key : ∀ (τ : Type) (q : Thunk τ (Payload K T)) (e : τ), c.Absent →
      c.get_or_insert_with q e = .ok ((q e).1, Some (q e).1, (q e).2) := by
    intro τ q e h
    cases K
    · obtain ⟨⟨st, b⟩⟩ := c
      cases st
      · cases h
      · rfl
    · obtain ⟨⟨p⟩⟩ := c
      cases p
      · rfl
      · cases h
    · obtain ⟨⟨p⟩⟩ := c
      cases p
      · rfl
      · cases h
  constructor
  · intro h
    refine ⟨Some (t env).1, key σ t env h, ?_, some_present _, ref_some _⟩
    exact key _ (counted t) (env, 0) h
  · intro v h
    obtain rfl := (present_iff c v).1 h
    refine ⟨?_, ?_, ref_some v⟩ <;>
      simp [Option.get_or_insert_with, is_some_some, ref_some, bind, Except.bind, pure,
        Except.pure]

/-- Witness of C17: the two `get_or_insert_with` cases of the test-suite, with the call
count of the thunk. -/
theorem get_or_insert_with_spec_witness :
    ((Option.ctor : Option .Owned Int).Absent ∧
      ∃ c1, (Option.ctor : Option .Owned Int).get_or_insert_with (fun (e : Unit) => (4, e)) () =
          .ok (4, c1, ()) ∧
        (Option.ctor : Option .Owned Int).get_or_insert_with
          (counted (fun (e : Unit) => (4, e))) ((), 0) = .ok (4, c1, ((), 1)) ∧
        c1.Present 4 ∧ Storage.ref .Owned c1.m_storage = .ok 4) ∧
    ((Some 5 : Option .Owned Int).Present 5 ∧
      (Some 5 : Option .Owned Int).get_or_insert_with (fun (e : Unit) => (4, e)) () =
        .ok (5, Some 5, ()) ∧
      (Some 5 : Option .Owned Int).get_or_insert_with
        (counted (fun (e : Unit) => (4, e))) ((), 0) = .ok (5, Some 5, ((), 0)) ∧
      Storage.ref .Owned (Some 5 : Option .Owned Int).m_storage = .ok 5) :=
  ⟨⟨ctor_absent,
      (get_or_insert_with_spec .Owned Int Unit Option.ctor (fun e => (4, e)) ()).1 ctor_absent⟩,
    ⟨some_present 5,
      (get_or_insert_with_spec .Owned Int Unit (Some 5) (fun e => (4, e)) ()).2 5
        (some_present 5)⟩⟩

/-- C18. For an owned container: if it is Present holding `v`, `get_or_insert_default()`
returns a handle to `v` and leaves the container as it was; if it is Absent, the call stores
a default-constructed `T`, returns a handle to it and leaves the container Present holding
that default value. -/
theorem get_or_insert_default_spec (T : Type) [Inhabited T] (c : Option .Owned T) :
    (∀ v, c.Present v →
      c.get_or_insert_default = .ok (v, c) ∧ Storage.ref .Owned c.m_storage = .ok v) ∧
    (c.Absent →
      ∃ c1, c.get_or_insert_default = .ok ((default : T), c1) ∧ c1.Present (default : T) ∧
        Storage.ref .Owned c1.m_storage = .ok (default : T)) := by
  constructor
  · intro v h
    obtain rfl := (present_iff c v).1 h
    exact ⟨rfl, rfl⟩
  · intro h
    obtain ⟨⟨st, b⟩⟩ := c
    cases st
    · cases h
    · exact ⟨Some (default : T), rfl, some_present _, rfl⟩

/-- Witness of C18: the two `get_or_insert_default` cases of the test-suite; the default
`int` is 0. -/
theorem get_or_insert_default_spec_witness :
    ((Some 5 : Option .Owned Int).Present 5 ∧
      (Some 5 : Option .Owned Int).get_or_insert_default = .ok (5, Some 5) ∧
      Storage.ref .Owned (Some 5 : Option .Owned Int).m_storage = .ok 5) ∧
    ((Option.ctor : Option .Owned Int).Absent ∧
      ∃ c1, (Option.ctor : Option .Owned Int).get_or_insert_default = .ok ((default : Int), c1) ∧
        c1.Present (default : Int) ∧ Storage.ref .Owned c1.m_storage = .ok (default : Int)) ∧
    (default : Int) = 0 ∧
    (Option.ctor : Option .Owned Int).get_or_insert_default = .ok (0, Some 0) :=
  ⟨⟨some_present 5, (get_or_insert_default_spec Int (Some 5)).1 5 (some_present 5)⟩,
    ⟨ctor_absent, (get_or_insert_default_spec Int Option.ctor).2 ctor_absent⟩, rfl, rfl⟩

/-- C19. The calls `unwrap()` and `expect(msg)` return exactly when the receiver is Present,
and then return the value held; on an Absent receiver they return no value: they write the
message to the diagnostic stream (`msg` for `expect`, the fixed text for `unwrap`) and
terminate. -/
theorem unwrap_expect_spec (K : Kind) (T : Type) (c : Option K T) (msg : String)
    (cerr : List String) :
    (∀ v, c.Present v →
      ∃ c1, c.unwrap cerr = .ok (.returned (v, c1), cerr) ∧
        c.expect msg cerr = .ok (.returned (v, c1), cerr)) ∧
    (c.Absent →
      c.unwrap cerr = .ok (.terminated, cerr ++ ["unwrap() called on Option with None value"]) ∧
      c.expect msg cerr = .ok (.terminated, cerr ++ [msg])) ∧
    (∀ out cerr1, c.unwrap cerr = .ok (out, cerr1) →
      ((∃ x, out = .returned x) ↔ ∃ v, c.Present v)) ∧
    (∀ out cerr1, c.expect msg cerr = .ok (out, cerr1) →
      ((∃ x, out = .returned x) ↔ ∃ v, c.Present v)) := by
  have hP : ∀ v, c.Present v →
      ∃ c1, c.unwrap cerr = .ok (.returned (v, c1), cerr) ∧
        c.expect msg cerr = .ok (.returned (v, c1), cerr) := by
    intro v h
    obtain rfl := (present_iff c v).1 h
    exact ⟨Option.drained v, by cases K <;> rfl, by cases K <;> rfl⟩
  have hA : c.Absent →
      c.unwrap cerr = .ok (.terminated, cerr ++ ["unwrap() called on Option with None value"]) ∧
      c.expect msg cerr = .ok (.terminated, cerr ++ [msg]) := by
    intro h
    have hs := (absent_iff c).1 h
    constructor <;> simp [Option.unwrap, Option.expect, hs, pure, Except.pure]
  refine ⟨hP, hA, ?_, ?_⟩
  · intro out cerr1 hrun
    rcases shape c with ⟨v, hv⟩ | ha | ⟨hs, e, he⟩
    · obtain ⟨c1, h1, -⟩ := hP v hv
      rw [h1] at hrun
      cases hrun
      exact ⟨fun _ => ⟨v, hv⟩, fun _ => ⟨_, rfl⟩⟩
    · rw [(hA ha).1] at hrun
      cases hrun
      constructor
      · rintro ⟨x, hx⟩; cases hx
      · rintro ⟨v, hv⟩; exact absurd ha (present_not_absent _ v hv)
    · simp [Option.unwrap, hs, he, bind, Except.bind] at hrun
  · intro out cerr1 hrun
    rcases shape c with ⟨v, hv⟩ | ha | ⟨hs, e, he⟩
    · obtain ⟨c1, -, h1⟩ := hP v hv
      rw [h1] at hrun
      cases hrun
      exact ⟨fun _ => ⟨v, hv⟩, fun _ => ⟨_, rfl⟩⟩
    · rw [(hA ha).2] at hrun
      cases hrun
      constructor
      · rintro ⟨x, hx⟩; cases hx
      · rintro ⟨v, hv⟩; exact absurd ha (present_not_absent _ v hv)
    · simp [Option.expect, hs, he, bind, Except.bind] at hrun

/-- Witness of C19: `Some(5).unwrap()` and `Some(5).expect(msg)` return 5; on an empty
`Option<int>` both write their message and terminate. -/
theorem unwrap_expect_spec_witness :
    ((Some 5 : Option .Owned Int).Present 5 ∧
      ∃ c1, (Some 5 : Option .Owned Int).unwrap [] = .ok (.returned (5, c1), []) ∧
        (Some 5 : Option .Owned Int).expect "Something is wrong with Option::expect" [] =
          .ok (.returned (5, c1), [])) ∧
    ((Option.ctor : Option .Owned Int).Absent ∧
      (Option.ctor : Option .Owned Int).unwrap [] =
        .ok (.terminated, [] ++ ["unwrap() called on Option with None value"]) ∧
      (Option.ctor : Option .Owned Int).expect "no value" [] =
        .ok (.terminated, [] ++ ["no value"])) :=
  ⟨⟨some_present 5,
      (unwrap_expect_spec .Owned Int (Some 5) "Something is wrong with Option::expect" []).1 5
        (some_present 5)⟩,
    ⟨ctor_absent,
      (unwrap_expect_spec .Owned Int Option.ctor "no value" []).2.1 ctor_absent⟩⟩

/-- C20. The call `unwrap_or(d)` returns `v` when the container is Present holding `v`, and
returns exactly `d` when it is Absent; for the reference kinds the payload is an address, so
on Absent the address of the result is the address of `d`. -/
theorem unwrap_or_spec (K : Kind) (T : Type) (c : Option K T) (d : Payload K T) :
    (∀ v, c.Present v → ∃ c1, c.unwrap_or d = .ok (v, c1)) ∧
    (c.Absent → c.unwrap_or d = .ok (d, c)) := by
  constructor
  · intro v h
    obtain rfl := (present_iff c v).1 h
    exact ⟨Option.drained v, by cases K <;> rfl⟩
  · intro h
    have hs := (absent_iff c).1 h
    simp [Option.unwrap_or, hs, pure, Except.pure]

/-- Witness of C20: the `unwrap_or` cases of the test-suite on `Option<int>` and on
`Option<int &>`. -/
theorem unwrap_or_spec_witness :
    ((Some 5 : Option .Owned Int).Present 5 ∧
      ∃ c1, (Some 5 : Option .Owned Int).unwrap_or 6 = .ok (5, c1)) ∧
    ((Option.ctor : Option .Owned Int).Absent ∧
      (Option.ctor : Option .Owned Int).unwrap_or 6 = .ok (6, Option.ctor)) ∧
    ((Option.ctor : Option .MutRef Int).Absent ∧
      (Option.ctor : Option .MutRef Int).unwrap_or 11 = .ok (11, Option.ctor)) :=
  ⟨⟨some_present 5, (unwrap_or_spec .Owned Int (Some 5) 6).1 5 (some_present 5)⟩,
    ⟨ctor_absent, (unwrap_or_spec .Owned Int Option.ctor 6).2 ctor_absent⟩,
    ⟨ctor_absent, (unwrap_or_spec .MutRef Int Option.ctor 11).2 ctor_absent⟩⟩

/-! The remaining extraction and transformation operations. -/

/-- C21. The call `unwrap_or_else(t)` returns `v` without running `t` when the container is
Present holding `v`; when it is Absent, the call runs `t` once and returns the result of
`t()`; it has no path to `std::terminate()`. -/
theorem unwrap_or_else_spec (K : Kind) (T σ : Type) (c : Option K T)
    (t : Thunk σ (Payload K T)) (env : σ) :
    (∀ v, c.Present v →
      (∃ c1, c.unwrap_or_else t env = .ok (v, c1, env)) ∧
      (∃ c1, c.unwrap_or_else (counted t) (env, 0) = .ok (v, c1, (env, 0)))) ∧
    (c.Absent →
      c.unwrap_or_else t env = .ok ((t env).1, c, (t env).2) ∧
      c.unwrap_or_else (counted t) (env, 0) = .ok ((t env).1, c, ((t env).2, 1))) := by
  constructor
  · intro v h
    obtain rfl := (present_iff c v).1 h
    exact ⟨⟨Option.drained v, by cases K <;> rfl⟩, ⟨Option.drained v, by cases K <;> rfl⟩⟩
  · intro h
    have hs := (absent_iff c).1 h
    constructor <;> simp [Option.unwrap_or_else, hs, pure, Except.pure, counted]

/-- Witness of C21: the two `unwrap_or_else` cases of the test-suite, with the call count of
the thunk. -/
theorem unwrap_or_else_spec_witness :
    ((Some 5 : Option .Owned Int).Present 5 ∧
      ∃ c1, (Some 5 : Option .Owned Int).unwrap_or_else (counted (fun (e : Unit) => (6, e)))
        ((), 0) = .ok (5, c1, ((), 0))) ∧
    ((Option.ctor : Option .Owned Int).Absent ∧
      (Option.ctor : Option .Owned Int).unwrap_or_else (counted (fun (e : Unit) => (6, e)))
        ((), 0) = .ok (6, Option.ctor, ((), 1))) :=
  ⟨⟨some_present 5,
      ((unwrap_or_else_spec .Owned Int Unit (Some 5) (fun e => (6, e)) ()).1 5
        (some_present 5)).2⟩,
    ⟨ctor_absent,
      ((unwrap_or_else_spec .Owned Int Unit Option.ctor (fun e => (6, e)) ()).2
        ctor_absent).2⟩⟩

/-- C22. For an owned container, `unwrap_or_default()` returns `v` when the container is
Present holding `v` and a default-constructed `T` when it is Absent; in both cases the call
returns. -/
theorem unwrap_or_default_spec (T : Type) [Inhabited T] (c : Option .Owned T) :
    (∀ v, c.Present v → ∃ c1, c.unwrap_or_default = .ok (v, c1)) ∧
    (c.Absent → c.unwrap_or_default = .ok ((default : T), c)) := by
  constructor
  · intro v h
    obtain rfl := (present_iff c v).1 h
    exact ⟨Option.drained v, rfl⟩
  · intro h
    have hs := (absent_iff c).1 h
    simp [Option.unwrap_or_default, hs, pure, Except.pure]

/-- Witness of C22: the two `unwrap_or_default` cases of the test-suite; the default `int`
is 0. -/
theorem unwrap_or_default_spec_witness :
    ((Some 5 : Option .Owned Int).Present 5 ∧
      ∃ c1, (Some 5 : Option .Owned Int).unwrap_or_default = .ok (5, c1)) ∧
    ((Option.ctor : Option .Owned Int).Absent ∧
      (Option.ctor : Option .Owned Int).unwrap_or_default = .ok ((default : Int), Option.ctor)) ∧
    (Option.ctor : Option .Owned Int).unwrap_or_default = .ok (0, Option.ctor) :=
  ⟨⟨some_present 5, (unwrap_or_default_spec Int (Some 5)).1 5 (some_present 5)⟩,
    ⟨ctor_absent, (unwrap_or_default_spec Int Option.ctor).2 ctor_absent⟩, rfl⟩

/-- C23. The call `map_or(d, f)` returns a Present Option on every Present or Absent
container: it holds `f(v)` when the container is Present holding `v`, and `d` when the
container is Absent, in which case `f` is not run. -/
theorem map_or_spec (K J : Kind) (T U σ : Type) (c : Option K T) (d : Payload J U)
    (f : Func σ (Payload K T) (Payload J U)) (env : σ) :
    (∀ v, c.Present v →
      (∃ r c1, c.map_or d f env = .ok (r, c1, (f v env).2) ∧ r.Present (f v env).1) ∧
      (∃ r c1, c.map_or d (logged f) (env, []) = .ok (r, c1, ((f v env).2, [v])) ∧
        r.Present (f v env).1)) ∧
    (c.Absent →
      (∃ r, c.map_or d f env = .ok (r, c, env) ∧ r.Present d) ∧
      (∃ r, c.map_or d (logged f) (env, []) = .ok (r, c, (env, [])) ∧ r.Present d)) := by
  constructor
  · intro v h
    obtain rfl := (present_iff c v).1 h
    exact ⟨⟨Some (f v env).1, Option.drained v, by cases K <;> rfl, some_present _⟩,
      ⟨Some (f v env).1, Option.drained v, by cases K <;> rfl, some_present _⟩⟩
  · intro h
    have hs := (absent_iff c).1 h
    exact ⟨⟨Some d, by simp [Option.map_or, hs, pure, Except.pure, Some], some_present d⟩,
      ⟨Some d, by simp [Option.map_or, hs, pure, Except.pure, Some], some_present d⟩⟩

/-- Witness of C23: the two `map_or` cases of the test-suite, with the call log of `f`. -/
theorem map_or_spec_witness :
    ((Some 5 : Option .Owned Int).Present 5 ∧
      ∃ r c1, (Some 5 : Option .Owned Int).map_or (J := .Owned) (U := Nat) 1
          (logged (fun _ (e : Unit) => (2, e))) ((), []) = .ok (r, c1, ((), [5])) ∧
        r.Present 2) ∧
    ((Option.ctor : Option .Owned Int).Absent ∧
      ∃ r, (Option.ctor : Option .Owned Int).map_or (J := .Owned) (U := Nat) 1
          (logged (fun _ (e : Unit) => (2, e))) ((), []) = .ok (r, Option.ctor, ((), [])) ∧
        r.Present 1) :=
  ⟨⟨some_present 5,
      ((map_or_spec .Owned .Owned Int Nat Unit (Some 5) 1 (fun _ e => (2, e)) ()).1 5
        (some_present 5)).2⟩,
    ⟨ctor_absent,
      ((map_or_spec .Owned .Owned Int Nat Unit Option.ctor 1 (fun _ e => (2, e)) ()).2
        ctor_absent).2⟩⟩

/-- C24. The call `map_or_else(d, f)` returns a Present Option on every Present or Absent
container: when the container is Present holding `v` it holds `f(v)`, `f` is run once and `d`
is not run; when the container is Absent it holds the result of `d()`, `d` is run once and
`f` is not run. -/
theorem map_or_else_spec (K J : Kind) (T U σ : Type) (c : Option K T)
    (d : Thunk σ (Payload J U)) (f : Func σ (Payload K T) (Payload J U)) (env : σ) :
    (∀ v, c.Present v →
      (∃ r c1, c.map_or_else d f env = .ok (r, c1, (f v env).2) ∧ r.Present (f v env).1) ∧
      (∃ r c1, c.map_or_else (countedIn d) (loggedIn f) (env, [], 0) =
          .ok (r, c1, ((f v env).2, [v], 0)) ∧ r.Present (f v env).1)) ∧
    (c.Absent →
      (∃ r, c.map_or_else d f env = .ok (r, c, (d env).2) ∧ r.Present (d env).1) ∧
      (∃ r, c.map_or_else (countedIn d) (loggedIn f) (env, [], 0) =
          .ok (r, c, ((d env).2, [], 1)) ∧ r.Present (d env).1)) := by
  constructor
  · intro v h
    obtain rfl := (present_iff c v).1 h
    exact ⟨⟨Some (f v env).1, Option.drained v, by cases K <;> rfl, some_present _⟩,
      ⟨Some (f v env).1, Option.drained v, by cases K <;> rfl, some_present _⟩⟩
  · intro h
    have hs := (absent_iff c).1 h
    exact ⟨⟨Some (d env).1, by simp [Option.map_or_else, hs, pure, Except.pure, Some],
        some_present _⟩,
      ⟨Some (d env).1, by simp [Option.map_or_else, hs, pure, Except.pure, Some, countedIn],
        some_present _⟩⟩

/-- Witness of C24: the two `map_or_else` cases of the test-suite, with the call log of `f`
and the call count of `d`. -/
theorem map_or_else_spec_witness :
    ((Some 5 : Option .Owned Int).Present 5 ∧
      ∃ r c1, (Some 5 : Option .Owned Int).map_or_else (J := .Owned) (U := Nat)
          (countedIn (fun (e : Unit) => (1, e))) (loggedIn (fun _ (e : Unit) => (2, e)))
          ((), [], 0) = .ok (r, c1, ((), [5], 0)) ∧ r.Present 2) ∧
    ((Option.ctor : Option .Owned Int).Absent ∧
      ∃ r, (Option.ctor : Option .Owned Int).map_or_else (J := .Owned) (U := Nat)
          (countedIn (fun (e : Unit) => (1, e))) (loggedIn (fun _ (e : Unit) => (2, e)))
          ((), [], 0) = .ok (r, Option.ctor, ((), [], 1)) ∧ r.Present 1) :=
  ⟨⟨some_present 5,
      ((map_or_else_spec .Owned .Owned Int Nat Unit (Some 5) (fun e => (1, e))
        (fun _ e => (2, e)) ()).1 5 (some_present 5)).2⟩,
    ⟨ctor_absent,
      ((map_or_else_spec .Owned .Owned Int Nat Unit Option.ctor (fun e => (1, e))
        (fun _ e => (2, e)) ()).2 ctor_absent).2⟩⟩

/-- C25. The call `inspect(f)` returns an Option with the state and payload the container had
before the call: Present holding `v`, or Absent; `f` is run once, on `v`, when the container
is Present, and is not run when it is Absent. -/
theorem inspect_spec (K : Kind) (T σ : Type) (c : Option K T)
    (f : Func σ (Payload K T) Unit) (env : σ) :
    (∀ v, c.Present v →
      (∃ r c1, c.inspect f env = .ok (r, c1, (f v env).2) ∧ r.Present v) ∧
      (∃ r c1, c.inspect (logged f) (env, []) = .ok (r, c1, ((f v env).2, [v])) ∧
        r.Present v)) ∧
    (c.Absent →
      (∃ r c1, c.inspect f env = .ok (r, c1, env) ∧ r.Absent) ∧
      (∃ r c1, c.inspect (logged f) (env, []) = .ok (r, c1, (env, [])) ∧ r.Absent)) := by
  constructor
  · intro v h
    obtain rfl := (present_iff c v).1 h
    obtain ⟨c1, h1⟩ := ctor_move_some (K := K) (T := T) v
    exact ⟨⟨Some v, c1, by simp [Option.inspect, is_some_some, cref_some, h1, bind, Except.bind,
        pure, Except.pure], some_present v⟩,
      ⟨Some v, c1, by simp [Option.inspect, is_some_some, cref_some, h1, bind, Except.bind,
        pure, Except.pure, logged], some_present v⟩⟩
  · intro h
    have hs := (absent_iff c).1 h
    have hm := ctor_move_absent c h
    exact ⟨⟨Option.ctor, c, by simp [Option.inspect, hs, hm, bind, Except.bind, pure,
        Except.pure], ctor_absent⟩,
      ⟨Option.ctor, c, by simp [Option.inspect, hs, hm, bind, Except.bind, pure,
        Except.pure], ctor_absent⟩⟩

/-- Witness of C25: the two `inspect` cases of the test-suite, with the call log of `f`. -/
theorem inspect_spec_witness :
    ((Some 5 : Option .Owned Int).Present 5 ∧
      ∃ r c1, (Some 5 : Option .Owned Int).inspect (logged (fun _ (e : Unit) => ((), e)))
          ((), []) = .ok (r, c1, ((), [5])) ∧ r.Present 5) ∧
    ((Option.ctor : Option .Owned Int).Absent ∧
      ∃ r c1, (Option.ctor : Option .Owned Int).inspect (logged (fun _ (e : Unit) => ((), e)))
          ((), []) = .ok (r, c1, ((), [])) ∧ r.Absent) :=
  ⟨⟨some_present 5,
      ((inspect_spec .Owned Int Unit (Some 5) (fun _ e => ((), e)) ()).1 5
        (some_present 5)).2⟩,
    ⟨ctor_absent,
      ((inspect_spec .Owned Int Unit Option.ctor (fun _ e => ((), e)) ()).2 ctor_absent).2⟩⟩

/-! Views, construction, presence queries and copies. -/

/-- C26. The calls `as_ref()` and `as_mut()` do not consume: on a container Present holding
`v` they return a Present reference-kind Option that refers to the payload of the container
(the slot in which `v` lives for the owned kind, the referent itself for the reference kinds),
on an Absent container they return an Absent one, and the container is after the call what it
was before. -/
theorem as_ref_as_mut_spec (K : Kind) (T : Type) (c : Option K T) (slot : Addr) :
    (∀ v, c.Present v →
      (∃ r, c.as_ref slot = .ok r ∧ r.Present (Option.payload_addr K v slot)) ∧
      (∃ r, c.as_mut slot = .ok (r, c) ∧
        r.Present (Option.as_mut_payload K (Option.payload_addr K v slot)))) ∧
    (c.Absent →
      (∃ r, c.as_ref slot = .ok r ∧ r.Absent) ∧
      (∃ r, c.as_mut slot = .ok (r, c) ∧ r.Absent)) := by
  constructor
  · intro v h
    obtain rfl := (present_iff c v).1 h
    cases K
    · exact ⟨⟨Some slot, rfl, some_present _⟩, ⟨Some slot, rfl, some_present (K := .MutRef) _⟩⟩
    · exact ⟨⟨Some v, rfl, some_present (K := .ConstRef) _⟩,
        ⟨Some v, rfl, some_present (K := .MutRef) _⟩⟩
    · exact ⟨⟨Some v, rfl, some_present (K := .ConstRef) _⟩,
        ⟨Some v, rfl, some_present (K := .ConstRef) _⟩⟩
  · intro h
    have hs := (absent_iff c).1 h
    exact ⟨⟨Option.ctor, by simp [Option.as_ref, hs, pure, Except.pure], ctor_absent⟩,
      ⟨Option.ctor, by simp [Option.as_mut, hs, pure, Except.pure], ctor_absent⟩⟩

/-- Witness of C26: `as_ref()` and `as_mut()` on `Option<int> a = Some(5)` living at address
100, and on an empty `Option<int>`. -/
theorem as_ref_as_mut_spec_witness :
    ((Some 5 : Option .Owned Int).Present 5 ∧
      (∃ r, (Some 5 : Option .Owned Int).as_ref 100 = .ok r ∧
        r.Present (Option.payload_addr .Owned (5 : Int) 100)) ∧
      (∃ r, (Some 5 : Option .Owned Int).as_mut 100 = .ok (r, Some 5) ∧
        r.Present (Option.as_mut_payload .Owned (Option.payload_addr .Owned (5 : Int) 100)))) ∧
    ((Option.ctor : Option .Owned Int).Absent ∧
      (∃ r, (Option.ctor : Option .Owned Int).as_ref 100 = .ok r ∧ r.Absent) ∧
      (∃ r, (Option.ctor : Option .Owned Int).as_mut 100 = .ok (r, Option.ctor) ∧ r.Absent)) :=
  ⟨⟨some_present 5, (as_ref_as_mut_spec .Owned Int (Some 5) 100).1 5 (some_present 5)⟩,
    ⟨ctor_absent, (as_ref_as_mut_spec .Owned Int Option.ctor 100).2 ctor_absent⟩⟩

/-- C27. For the reference kinds, on a container Present referring to the object at address
`p`, `as_ref()` and `as_mut()` return a Present Option whose stored address is exactly `p`. -/
theorem as_ref_as_mut_address (T : Type) (p slot : Addr) :
    (∀ c : Option .MutRef T, c.Present p →
      (∃ r, c.as_ref slot = .ok r ∧ r.m_storage.m_ptr = .addr p ∧ r.Present p) ∧
      (∃ r c1, c.as_mut slot = .ok (r, c1) ∧ r.m_storage.m_ptr = .addr p ∧ r.Present p)) ∧
    (∀ c : Option .ConstRef T, c.Present p →
      (∃ r, c.as_ref slot = .ok r ∧ r.m_storage.m_ptr = .addr p ∧ r.Present p) ∧
      (∃ r c1, c.as_mut slot = .ok (r, c1) ∧ r.m_storage.m_ptr = .addr p ∧ r.Present p)) := by
  constructor
  · intro c h
    obtain rfl := (present_iff c p).1 h
    exact ⟨⟨Some p, rfl, rfl, some_present (K := .ConstRef) p⟩,
      ⟨Some p, Some p, rfl, rfl, some_present (K := .MutRef) p⟩⟩
  · intro c h
    obtain rfl := (present_iff c p).1 h
    exact ⟨⟨Some p, rfl, rfl, some_present (K := .ConstRef) p⟩,
      ⟨Some p, Some p, rfl, rfl, some_present (K := .ConstRef) p⟩⟩

/-- Witness of C27 on `Option<int &> a = Some(value)` with `value` at address 7. -/
theorem as_ref_as_mut_address_witness :
    (Some 7 : Option .MutRef Int).Present 7 ∧
      (∃ r, (Some 7 : Option .MutRef Int).as_ref 100 = .ok r ∧ r.m_storage.m_ptr = .addr 7 ∧
        r.Present 7) ∧
      (∃ r c1, (Some 7 : Option .MutRef Int).as_mut 100 = .ok (r, c1) ∧
        r.m_storage.m_ptr = .addr 7 ∧ r.Present 7) :=
  ⟨some_present (K := .MutRef) 7,
    (as_ref_as_mut_address Int 7 100).1 (Some 7) (some_present (K := .MutRef) 7)⟩

/-- C28. A container constructed from a value `v`, by `Some(v)` or by `Option(v)`, is Present:
`is_some()` is true, `is_none()` is false and the unchecked read returns exactly `v` (the
value for the owned kind, the address for the reference kinds); a container constructed by
default or from `None` is Absent: `is_none()` is true and `is_some()` is false. -/
theorem construction_fixes_state (K : Kind) (T : Type) (v : Payload K T) :
    ((Some v : Option K T).is_some = true ∧ (Some v : Option K T).is_none = false ∧
      (Some v : Option K T).Present v ∧
      ∃ c1, (Some v : Option K T).unwrap_unchecked = .ok (v, c1)) ∧
    ((Option.ctor_value v : Option K T).is_some = true ∧
      (Option.ctor_value v : Option K T).is_none = false ∧
      (Option.ctor_value v : Option K T).Present v ∧
      ∃ c1, (Option.ctor_value v : Option K T).unwrap_unchecked = .ok (v, c1)) ∧
    ((Option.ctor : Option K T).is_none = true ∧ (Option.ctor : Option K T).is_some = false) ∧
    ((Option.ctor_none ⟨⟩ : Option K T).is_none = true ∧
      (Option.ctor_none ⟨⟩ : Option K T).is_some = false) := by
  have h : (Some v : Option K T).is_some = true ∧ (Some v : Option K T).is_none = false ∧
      (Some v : Option K T).Present v ∧
      ∃ c1, (Some v : Option K T).unwrap_unchecked = .ok (v, c1) :=
    ⟨is_some_some v, by cases K <;> rfl, some_present v,
      ⟨Option.drained v, by cases K <;> rfl⟩⟩
  exact ⟨h, h, by cases K <;> exact ⟨rfl, rfl⟩, by cases K <;> exact ⟨rfl, rfl⟩⟩

/-- C29. The presence queries are complementary on every container of every kind:
`is_none()` is the negation of `is_some()`; a Present container answers true to `is_some()`
and an Absent one to `is_none()`. Both are `const` members: they return their answer and
leave the container as it is. -/
theorem presence_queries_spec (K : Kind) (T : Type) (c : Option K T) :
    c.is_none = !c.is_some ∧
    (∀ v, c.Present v → c.is_some = true ∧ c.is_none = false) ∧
    (c.Absent → c.is_none = true ∧ c.is_some = false) := by
  have h1 : c.is_none = !c.is_some := by
    cases K
    · obtain ⟨⟨st, b⟩⟩ := c
      cases st <;> rfl
    · obtain ⟨⟨q⟩⟩ := c
      cases q <;> rfl
    · obtain ⟨⟨q⟩⟩ := c
      cases q <;> rfl
  refine ⟨h1, ?_, ?_⟩
  · intro v h
    exact ⟨h.1, by rw [h1, h.1]; rfl⟩
  · intro h
    exact ⟨h, (absent_iff c).1 h⟩

/-- Witness of C29 on `Some(5)` and on an empty `Option<int &>`. -/
theorem presence_queries_spec_witness :
    ((Some 5 : Option .Owned Int).Present 5 ∧
      (Some 5 : Option .Owned Int).is_some = true ∧ (Some 5 : Option .Owned Int).is_none = false) ∧
    ((Option.ctor : Option .MutRef Int).Absent ∧
      (Option.ctor : Option .MutRef Int).is_none = true ∧
      (Option.ctor : Option .MutRef Int).is_some = false) :=
  ⟨⟨some_present 5, (presence_queries_spec .Owned Int (Some 5)).2.1 5 (some_present 5)⟩,
    ⟨ctor_absent, (presence_queries_spec .MutRef Int Option.ctor).2.2 ctor_absent⟩⟩

/-- Copies outside the copy construction of an owned container whose slot holds no object:
from a Present source, the copy constructor and the copy assignment into another Present or
Absent container yield a container Present with the same payload; from an Absent source the
copy assignment, and the copy constructor of the reference kinds, yield an Absent container;
copy assignment of a container to itself changes nothing. -/
theorem copy_duplicates_guarded (K : Kind) (T : Type) (s dst0 : Option K T)
    (hd : (∃ w, dst0.Present w) ∨ dst0.Absent) :
    (∀ v, s.Present v →
      (∃ r, Option.ctor_copy s = .ok r ∧ r.Present v) ∧
      (∃ r, dst0.assign_copy (.object s) = .ok r ∧ r.Present v)) ∧
    (s.Absent →
      (∃ r, dst0.assign_copy (.object s) = .ok r ∧ r.Absent) ∧
      (K ≠ .Owned → ∃ r, Option.ctor_copy s = .ok r ∧ r.Absent)) ∧
    dst0.assign_copy .self = .ok dst0 := by
  refine ⟨?_, ?_, ?_⟩
  · intro v h
    obtain rfl := (present_iff s v).1 h
    refine ⟨⟨Some v, by cases K <;> rfl, some_present v⟩, Some v, ?_, some_present v⟩
    rcases hd with ⟨w, hw⟩ | ha
    · obtain rfl := (present_iff dst0 w).1 hw
      cases K <;> rfl
    · cases K
      · obtain ⟨⟨st, b⟩⟩ := dst0
        cases st
        · cases ha
        · rfl
      · rfl
      · rfl
  · intro h
    cases K
    · obtain ⟨⟨st, b⟩⟩ := s
      cases st
      · cases h
      · refine ⟨?_, fun hk => absurd rfl hk⟩
        rcases hd with ⟨w, hw⟩ | ha
        · obtain rfl := (present_iff dst0 w).1 hw
          exact ⟨Option.ctor, rfl, rfl⟩
        · obtain ⟨⟨st0, b0⟩⟩ := dst0
          cases st0
          · cases ha
          · exact ⟨⟨⟨.NONE, b0⟩⟩, rfl, rfl⟩
    · obtain ⟨⟨q⟩⟩ := s
      cases q
      · exact ⟨⟨Option.ctor, rfl, rfl⟩, fun _ => ⟨Option.ctor, rfl, rfl⟩⟩
      · cases h
    · obtain ⟨⟨q⟩⟩ := s
      cases q
      · exact ⟨⟨Option.ctor, rfl, rfl⟩, fun _ => ⟨Option.ctor, rfl, rfl⟩⟩
      · cases h
  · cases K <;> rfl

/-- C30 at its failing input. Copy-constructing from a default-constructed `Option<int>`
reads a `T` out of the bytes of the source, in which no object lives; copy assignment from
the same source tests `is_some()` first and yields an Absent container. -/
theorem copy_ctor_reads_empty_slot :
    (Option.ctor : Option .Owned Int).Absent ∧
      Option.ctor_copy (Option.ctor : Option .Owned Int) = .error .no_object ∧
      (Option.ctor : Option .Owned Int).assign_copy (.object Option.ctor) = .ok Option.ctor :=
  ⟨ctor_absent, rfl, rfl⟩

/-! Frame conditions of the consuming operations and of the storage reads. -/

theorem get_absent {K : Kind} {T : Type} (s : Storage K T) (v : Payload K T) (s1 : Storage K T)
    (h : Storage.get K s = .ok (v, s1)) : (⟨s1⟩ : Option K T).Absent := by
  cases K
  · obtain ⟨st, b⟩ := s
    cases b
    · cases h
    · cases h; rfl
  · obtain ⟨q⟩ := s
    cases q
    · cases h
    · cases h; rfl
  · obtain ⟨q⟩ := s
    cases q
    · cases h
    · cases h; rfl

theorem unwrap_leaves_absent {K : Kind} {T : Type} (c : Option K T) (cerr : List String) :
    ∀ x c1 s1, c.unwrap cerr = .ok (.returned (x, c1), s1) → c1.Absent := by
  intro x c1 s1 h
  unfold Option.unwrap at h
  split at h
  · cases hg : Storage.get K c.m_storage with
    | error e => simp [hg, bind, Except.bind] at h
    | ok p =>
      obtain ⟨v, s2⟩ := p
      simp [hg, bind, Except.bind, pure, Except.pure] at h
      have hc : (⟨s2⟩ : Option K T) = c1 := by tauto
      subst hc
      exact get_absent _ _ _ hg
  · rename_i hs
    simp [pure, Except.pure] at h

theorem expect_leaves_absent {K : Kind} {T : Type} (c : Option K T) (msg : String) (cerr : List String) :
    ∀ x c1 s1, c.expect msg cerr = .ok (.returned (x, c1), s1) → c1.Absent := by
  intro x c1 s1 h
  unfold Option.expect at h
  split at h
  · cases hg : Storage.get K c.m_storage with
    | error e => simp [hg, bind, Except.bind] at h
    | ok p =>
      obtain ⟨v, s2⟩ := p
      simp [hg, bind, Except.bind, pure, Except.pure] at h
      have hc : (⟨s2⟩ : Option K T) = c1 := by tauto
      subst hc
      exact get_absent _ _ _ hg
  · rename_i hs
    simp [pure, Except.pure] at h

theorem unwrap_or_leaves_absent {K : Kind} {T : Type} (c : Option K T) (d : Payload K T) :
    ∀ x  c1, c.unwrap_or d = .ok (x, c1) → c1.Absent := by
  intro x  c1 h
  unfold Option.unwrap_or at h
  split at h
  · cases hg : Storage.get K c.m_storage with
    | error e => simp [hg, bind, Except.bind] at h
    | ok p =>
      obtain ⟨v, s2⟩ := p
      simp [hg, bind, Except.bind, pure, Except.pure] at h
      have hc : (⟨s2⟩ : Option K T) = c1 := by tauto
      subst hc
      exact get_absent _ _ _ hg
  · rename_i hs
    simp [pure, Except.pure] at h
    have hc : c = c1 := by tauto
    subst hc
    exact (absent_iff _).2 (by simpa using hs)

theorem unwrap_or_else_leaves_absent {K : Kind} {T : Type} {σ : Type} (c : Option K T) (t : Thunk σ (Payload K T)) (env : σ) :
    ∀ x  c1  e1, c.unwrap_or_else t env = .ok (x, c1, e1) → c1.Absent := by
  intro x  c1  e1 h
  unfold Option.unwrap_or_else at h
  split at h
  · cases hg : Storage.get K c.m_storage with
    | error e => simp [hg, bind, Except.bind] at h
    | ok p =>
      obtain ⟨v, s2⟩ := p
      simp [hg, bind, Except.bind, pure, Except.pure] at h
      have hc : (⟨s2⟩ : Option K T) = c1 := by tauto
      subst hc
      exact get_absent _ _ _ hg
  · rename_i hs
    simp [pure, Except.pure] at h
    have hc : c = c1 := by tauto
    subst hc
    exact (absent_iff _).2 (by simpa using hs)

theorem map_leaves_absent {K : Kind} {T : Type} {σ : Type} {J : Kind} {U : Type} (c : Option K T) (f : Func σ (Payload K T) (Payload J U)) (env : σ) :
    ∀ x  c1  e1, c.map f env = .ok (x, c1, e1) → c1.Absent := by
  intro x  c1  e1 h
  unfold Option.map at h
  split at h
  · cases hg : Storage.get K c.m_storage with
    | error e => simp [hg, bind, Except.bind] at h
    | ok p =>
      obtain ⟨v, s2⟩ := p
      simp [hg, bind, Except.bind, pure, Except.pure] at h
      have hc : (⟨s2⟩ : Option K T) = c1 := by tauto
      subst hc
      exact get_absent _ _ _ hg
  · rename_i hs
    simp [pure, Except.pure] at h
    have hc : c = c1 := by tauto
    subst hc
    exact (absent_iff _).2 (by simpa using hs)

theorem map_or_leaves_absent {K : Kind} {T : Type} {σ : Type} {J : Kind} {U : Type} (c : Option K T) (d : Payload J U) (f : Func σ (Payload K T) (Payload J U)) (env : σ) :
    ∀ x  c1  e1, c.map_or d f env = .ok (x, c1, e1) → c1.Absent := by
  intro x  c1  e1 h
  unfold Option.map_or at h
  split at h
  · cases hg : Storage.get K c.m_storage with
    | error e => simp [hg, bind, Except.bind] at h
    | ok p =>
      obtain ⟨v, s2⟩ := p
      simp [hg, bind, Except.bind, pure, Except.pure] at h
      have hc : (⟨s2⟩ : Option K T) = c1 := by tauto
      subst hc
      exact get_absent _ _ _ hg
  · rename_i hs
    simp [pure, Except.pure] at h
    have hc : c = c1 := by tauto
    subst hc
    exact (absent_iff _).2 (by simpa using hs)

theorem map_or_else_leaves_absent {K : Kind} {T : Type} {σ : Type} {J : Kind} {U : Type} (c : Option K T) (d : Thunk σ (Payload J U)) (f : Func σ (Payload K T) (Payload J U)) (env : σ) :
    ∀ x  c1  e1, c.map_or_else d f env = .ok (x, c1, e1) → c1.Absent := by
  intro x  c1  e1 h
  unfold Option.map_or_else at h
  split at h
  · cases hg : Storage.get K c.m_storage with
    | error e => simp [hg, bind, Except.bind] at h
    | ok p =>
      obtain ⟨v, s2⟩ := p
      simp [hg, bind, Except.bind, pure, Except.pure] at h
      have hc : (⟨s2⟩ : Option K T) = c1 := by tauto
      subst hc
      exact get_absent _ _ _ hg
  · rename_i hs
    simp [pure, Except.pure] at h
    have hc : c = c1 := by tauto
    subst hc
    exact (absent_iff _).2 (by simpa using hs)

theorem and_then_leaves_absent {K : Kind} {T : Type} {σ : Type} {J : Kind} {U : Type} (c : Option K T) (f : Func σ (Payload K T) (Option J U)) (env : σ) :
    ∀ x  c1  e1, c.and_then f env = .ok (x, c1, e1) → c1.Absent := by
  intro x  c1  e1 h
  unfold Option.and_then at h
  split at h
  · cases hg : Storage.get K c.m_storage with
    | error e => simp [hg, bind, Except.bind] at h
    | ok p =>
      obtain ⟨v, s2⟩ := p
      simp [hg, bind, Except.bind, pure, Except.pure] at h
      have hc : (⟨s2⟩ : Option K T) = c1 := by tauto
      subst hc
      exact get_absent _ _ _ hg
  · rename_i hs
    simp [pure, Except.pure] at h
    have hc : c = c1 := by tauto
    subst hc
    exact (absent_iff _).2 (by simpa using hs)

theorem unwrap_or_default_leaves_absent {T : Type} [Inhabited T] (c : Option .Owned T) :
    ∀ x c1, c.unwrap_or_default = .ok (x, c1) → c1.Absent := by
  intro x c1 h
  unfold Option.unwrap_or_default at h
  split at h
  · cases hg : Storage.get .Owned c.m_storage with
    | error e => simp [hg, bind, Except.bind] at h
    | ok p =>
      obtain ⟨v, s2⟩ := p
      simp [hg, bind, Except.bind, pure, Except.pure] at h
      have hc : (⟨s2⟩ : Option .Owned T) = c1 := by tauto
      subst hc
      exact get_absent (K := .Owned) _ _ _ hg
  · rename_i hs
    simp [pure, Except.pure] at h
    have hc : c = c1 := by tauto
    subst hc
    exact (absent_iff _).2 (by simpa using hs)

theorem unwrap_unchecked_leaves_absent {K : Kind} {T : Type} (c : Option K T) :
    ∀ x c1, c.unwrap_unchecked = .ok (x, c1) → c1.Absent := by
  intro x c1 h
  unfold Option.unwrap_unchecked at h
  cases hg : Storage.get K c.m_storage with
  | error e => simp [hg, bind, Except.bind] at h
  | ok p =>
    obtain ⟨v, s2⟩ := p
    simp [hg, bind, Except.bind, pure, Except.pure] at h
    have hc : (⟨s2⟩ : Option K T) = c1 := by tauto
    subst hc
    exact get_absent _ _ _ hg

/-- C31. Each of `unwrap`, `expect`, `unwrap_or`, `unwrap_or_else`, `unwrap_or_default`,
`unwrap_unchecked`, `map`, `map_or`, `map_or_else` and `and_then` leaves the receiver Absent
whenever it returns, whether the receiver was Present or Absent before the call; and on a
Present receiver each of them returns. -/
theorem consuming_ops_leave_absent (K J : Kind) (T U σ : Type) [Inhabited T]
    (c : Option K T) (o : Option .Owned T) (msg : String) (cerr : List String)
    (d : Payload K T) (t : Thunk σ (Payload K T)) (f : Func σ (Payload K T) (Payload J U))
    (e : Payload J U) (dt : Thunk σ (Payload J U)) (g : Func σ (Payload K T) (Option J U))
    (env : σ) :
    ((∀ x c1 s1, c.unwrap cerr = .ok (.returned (x, c1), s1) → c1.Absent) ∧
      (∀ x c1 s1, c.expect msg cerr = .ok (.returned (x, c1), s1) → c1.Absent) ∧
      (∀ x c1, c.unwrap_or d = .ok (x, c1) → c1.Absent) ∧
      (∀ x c1 e1, c.unwrap_or_else t env = .ok (x, c1, e1) → c1.Absent) ∧
      (∀ x o1, o.unwrap_or_default = .ok (x, o1) → o1.Absent) ∧
      (∀ x c1, c.unwrap_unchecked = .ok (x, c1) → c1.Absent) ∧
      (∀ r c1 e1, c.map f env = .ok (r, c1, e1) → c1.Absent) ∧
      (∀ r c1 e1, c.map_or e f env = .ok (r, c1, e1) → c1.Absent) ∧
      (∀ r c1 e1, c.map_or_else dt f env = .ok (r, c1, e1) → c1.Absent) ∧
      (∀ r c1 e1, c.and_then g env = .ok (r, c1, e1) → c1.Absent)) ∧
    (∀ v, c.Present v →
      (∃ c1, c.unwrap cerr = .ok (.returned (v, c1), cerr) ∧ c1.Absent) ∧
      (∃ c1, c.expect msg cerr = .ok (.returned (v, c1), cerr) ∧ c1.Absent) ∧
      (∃ c1, c.unwrap_or d = .ok (v, c1) ∧ c1.Absent) ∧
      (∃ c1, c.unwrap_or_else t env = .ok (v, c1, env) ∧ c1.Absent) ∧
      (∃ c1, c.unwrap_unchecked = .ok (v, c1) ∧ c1.Absent) ∧
      (∃ r c1 e1, c.map f env = .ok (r, c1, e1) ∧ c1.Absent) ∧
      (∃ r c1 e1, c.map_or e f env = .ok (r, c1, e1) ∧ c1.Absent) ∧
      (∃ r c1 e1, c.map_or_else dt f env = .ok (r, c1, e1) ∧ c1.Absent) ∧
      (∃ r c1 e1, c.and_then g env = .ok (r, c1, e1) ∧ c1.Absent)) ∧
    (∀ w, o.Present w → ∃ o1, o.unwrap_or_default = .ok (w, o1) ∧ o1.Absent) ∧
    (c.Absent →
      c.unwrap_or d = .ok (d, c) ∧
      c.unwrap_or_else t env = .ok ((t env).1, c, (t env).2) ∧
      (∃ r, c.map f env = .ok (r, c, env)) ∧
      (∃ r, c.map_or e f env = .ok (r, c, env)) ∧
      (∃ r, c.map_or_else dt f env = .ok (r, c, (dt env).2)) ∧
      (∃ r, c.and_then g env = .ok (r, c, env))) ∧
    (o.Absent → o.unwrap_or_default = .ok ((default : T), o)) := by
  refine ⟨⟨unwrap_leaves_absent c cerr, expect_leaves_absent c msg cerr,
    unwrap_or_leaves_absent c d, unwrap_or_else_leaves_absent c t env,
    unwrap_or_default_leaves_absent o, unwrap_unchecked_leaves_absent c,
    map_leaves_absent c f env, map_or_leaves_absent c e f env,
    map_or_else_leaves_absent c dt f env, and_then_leaves_absent c g env⟩, ?_, ?_, ?_, ?_⟩
  · intro v h
    obtain rfl := (present_iff c v).1 h
    have hd := drained_absent (K := K) (T := T) v
    exact ⟨⟨Option.drained v, by cases K <;> rfl, hd⟩, ⟨Option.drained v, by cases K <;> rfl, hd⟩,
      ⟨Option.drained v, by cases K <;> rfl, hd⟩, ⟨Option.drained v, by cases K <;> rfl, hd⟩,
      ⟨Option.drained v, by cases K <;> rfl, hd⟩,
      ⟨Some (f v env).1, Option.drained v, (f v env).2, by cases K <;> rfl, hd⟩,
      ⟨Some (f v env).1, Option.drained v, (f v env).2, by cases K <;> rfl, hd⟩,
      ⟨Some (f v env).1, Option.drained v, (f v env).2, by cases K <;> rfl, hd⟩,
      ⟨(g v env).1, Option.drained v, (g v env).2, by cases K <;> rfl, hd⟩⟩
  · intro w h
    obtain rfl := (present_iff o w).1 h
    exact ⟨Option.drained w, rfl, drained_absent (K := .Owned) w⟩
  · intro h
    have hs := (absent_iff c).1 h
    refine ⟨?_, ?_, ⟨Option.ctor, ?_⟩, ⟨Option.ctor_value e, ?_⟩,
      ⟨Option.ctor_value (dt env).1, ?_⟩, ⟨Option.ctor, ?_⟩⟩ <;>
      simp [Option.unwrap_or, Option.unwrap_or_else, Option.map, Option.map_or,
        Option.map_or_else, Option.and_then, hs, pure, Except.pure]
  · intro h
    have hs := (absent_iff o).1 h
    simp [Option.unwrap_or_default, hs, pure, Except.pure]

/-- Witness of C31 on `Some(5)`: after `unwrap()`, `map(f)` and `unwrap_or(6)` the receiver
is Absent; an empty `Option<int>` is still Absent after `unwrap_or(6)`. -/
theorem consuming_ops_leave_absent_witness :
    ((Some 5 : Option .Owned Int).Present 5 ∧
      (∃ c1, (Some 5 : Option .Owned Int).unwrap [] = .ok (.returned (5, c1), []) ∧
        c1.Absent)) ∧
    ((Option.ctor : Option .Owned Int).Absent ∧
      (Option.ctor : Option .Owned Int).unwrap_or 6 = .ok (6, Option.ctor)) :=
  ⟨⟨some_present 5,
      ((consuming_ops_leave_absent .Owned .Owned Int Nat Unit (Some 5) (Some 5) "m" [] 6
        (fun e => (6, e)) (fun _ e => (2, e)) 1 (fun e => (1, e)) (fun _ e => (Some 2, e))
        ()).2.1 5 (some_present 5)).1⟩,
    ⟨ctor_absent,
      ((consuming_ops_leave_absent .Owned .Owned Int Nat Unit Option.ctor Option.ctor "m" [] 6
        (fun e => (6, e)) (fun _ e => (2, e)) 1 (fun e => (1, e)) (fun _ e => (Some 2, e))
        ()).2.2.2.1 ctor_absent).1⟩⟩

/-- C32. On a Present storage holding `v`, of every kind, `get()` returns `v` and leaves the
storage Absent (for the reference kinds it returns the referent and clears the stored
address), whereas `ref()` and `cref()` return `v`; these two return a reference only, the
storage is not written. -/
theorem storage_read_discipline (K : Kind) (T : Type) (s : Storage K T) (v : Payload K T)
    (hs : Storage.is_some K s = true) (hv : Storage.cref K s = .ok v) :
    (∃ s1, Storage.get K s = .ok (v, s1) ∧ Storage.is_none K s1 = true ∧
      Storage.is_some K s1 = false ∧
      (K = .Owned ∨ s1 = Storage.ctor K)) ∧
    Storage.ref K s = .ok v ∧ Storage.cref K s = .ok v := by
  have h : (⟨s⟩ : Option K T).Present v := ⟨hs, hv⟩
  have hc := (present_iff _ _).1 h
  have hs2 : s = (Some v : Option K T).m_storage := congrArg Option.m_storage hc
  subst hs2
  refine ⟨?_, ref_some v, hv⟩
  cases K
  · exact ⟨_, rfl, rfl, rfl, Or.inl rfl⟩
  · exact ⟨_, rfl, rfl, rfl, Or.inr rfl⟩
  · exact ⟨_, rfl, rfl, rfl, Or.inr rfl⟩

/-- Witness of C32 on an owned storage holding 5 and on a reference storage holding the
address 7. -/
theorem storage_read_discipline_witness :
    ((∃ s1, Storage.get .Owned (OptionStorage.ctor_value (5 : Int)) = .ok (5, s1) ∧
        Storage.is_none .Owned s1 = true ∧ Storage.is_some .Owned s1 = false ∧
        (Kind.Owned = .Owned ∨ s1 = Storage.ctor .Owned)) ∧
      Storage.ref .Owned (OptionStorage.ctor_value (5 : Int)) = .ok 5 ∧
      Storage.cref .Owned (OptionStorage.ctor_value (5 : Int)) = .ok 5) ∧
    Storage.get .MutRef (OptionStorageRef.ctor_value 7 : OptionStorageRef Int) =
      .ok (7, ⟨.nullptr⟩) :=
  ⟨storage_read_discipline .Owned Int (OptionStorage.ctor_value 5) 5 rfl rfl, rfl⟩

/-- C33 at its failing inputs. Copy-constructing an owned storage from an Absent source reads
the payload slot of the source (a fault when no object lives there) and constructs a `T` in
the destination slot although the result is tagged `NONE`; copy assignment from the same
sources tests `is_some()` first and performs no payload action. -/
theorem copy_ctor_acts_on_absent_payload :
    OptionStorage.ctor_copy (OptionStorage.ctor : OptionStorage Int) = .error .no_object ∧
    OptionStorage.ctor_copy (⟨.NONE, .obj 5⟩ : OptionStorage Int) = .ok ⟨.NONE, .obj 5⟩ ∧
    OptionStorage.assign_copy (OptionStorage.ctor : OptionStorage Int)
      (.object OptionStorage.ctor) = .ok ⟨.NONE, .raw⟩ ∧
    OptionStorage.assign_copy (OptionStorage.ctor : OptionStorage Int)
      (.object ⟨.NONE, .obj 5⟩) = .ok ⟨.NONE, .raw⟩ :=
  ⟨rfl, rfl, rfl, rfl⟩

/-! Operations that return the receiver, and refinements between operations. -/

theorem ctor_move_is_some {K : Kind} {T : Type} (c r c1 : Option K T)
    (h : Option.ctor_move c = .ok (r, c1)) : r.is_some = c.is_some := by
  cases K
  · obtain ⟨⟨st, b⟩⟩ := c
    cases st
    · cases b
      · cases h
      · cases h; rfl
    · cases h; rfl
  · obtain ⟨⟨q⟩⟩ := c
    cases h; rfl
  · obtain ⟨⟨q⟩⟩ := c
    cases h; rfl

/-- C36. For the owned kind, on a receiver Present holding `v`, each of `inspect(f)`,
`filter(p)` with `p` true, `or_(b)`, `or_else(t)` and `xor_(b)` with `b` Absent returns a
Present Option holding `v` and leaves the receiver Absent. -/
theorem owned_self_return_moves_out (T σ : Type) (c b : Option .Owned T) (f : Func σ T Unit)
    (p : Func σ T Bool) (t : Thunk σ (Option .Owned T)) (env : σ) (v : T)
    (h : c.Present v) :
    (∃ r c1 e1, c.inspect f env = .ok (r, c1, e1) ∧ r.Present v ∧ c1.Absent) ∧
    ((p v env).1 = true →
      ∃ r c1 e1, c.filter p env = .ok (r, c1, e1) ∧ r.Present v ∧ c1.Absent) ∧
    (∃ r c1, c.or_ b = .ok (r, c1) ∧ r.Present v ∧ c1.Absent) ∧
    (∃ r c1 e1, c.or_else t env = .ok (r, c1, e1) ∧ r.Present v ∧ c1.Absent) ∧
    (b.Absent → ∃ r c1, c.xor_ b = .ok (r, c1) ∧ r.Present v ∧ c1.Absent) := by
  obtain rfl := (present_iff c v).1 h
  have hd := drained_absent (K := .Owned) (T := T) v
  have hm : Option.ctor_move (Some v : Option .Owned T) = .ok (Some v, Option.drained v) := rfl
  refine ⟨⟨Some v, Option.drained v, (f v env).2, rfl, h, hd⟩, ?_,
    ⟨Some v, Option.drained v, rfl, h, hd⟩, ⟨Some v, Option.drained v, env, rfl, h, hd⟩, ?_⟩
  · intro hp
    refine ⟨Some v, Option.drained v, (p v env).2, ?_, h, hd⟩
    simp [Option.filter, is_some_some, cref_some, bind, Except.bind, hp, hm, pure, Except.pure]
  · intro hb
    have hbs := (absent_iff b).1 hb
    exact ⟨Some v, Option.drained v, by simp [Option.xor_, is_some_some, hbs, hm], h, hd⟩

/-- Witness of C36 on `Option<int> a = Some(5)`. -/
theorem owned_self_return_moves_out_witness :
    (Some 5 : Option .Owned Int).Present 5 ∧
      (∃ r c1 e1, (Some 5 : Option .Owned Int).inspect (fun _ (e : Unit) => ((), e)) () =
        .ok (r, c1, e1) ∧ r.Present 5 ∧ c1.Absent) :=
  ⟨some_present 5,
    (owned_self_return_moves_out Int Unit (Some 5) Option.ctor (fun _ e => ((), e))
      (fun _ e => (true, e)) (fun e => (Option.ctor, e)) () 5 (some_present 5)).1⟩

/-- C37. Whenever `filter(p)` or `xor_(b)` returns an Absent Option, the receiver is after the
call what it was before; this is the case for `filter` when `p` is false or the receiver is
Absent, and for `xor_` when both are Present or both are Absent, so a Present receiver is then
not consumed. -/
theorem empty_result_keeps_receiver (K : Kind) (T σ : Type) (c b : Option K T)
    (p : Func σ (Payload K T) Bool) (env : σ) :
    (∀ r c1 e1, c.filter p env = .ok (r, c1, e1) → r.Absent → c1 = c) ∧
    (∀ r c1, c.xor_ b = .ok (r, c1) → r.Absent → c1 = c) ∧
    (∀ v, c.Present v → (p v env).1 = false →
      ∃ r e1, c.filter p env = .ok (r, c, e1) ∧ r.Absent) ∧
    (c.Absent → ∃ r e1, c.filter p env = .ok (r, c, e1) ∧ r.Absent) ∧
    (∀ v w, c.Present v → b.Present w → ∃ r, c.xor_ b = .ok (r, c) ∧ r.Absent) ∧
    (c.Absent → b.Absent → ∃ r, c.xor_ b = .ok (r, c) ∧ r.Absent) := by
  refine ⟨?_, ?_, ?_, ?_, ?_, ?_⟩
  · intro r c1 e1 hrun hr
    unfold Option.filter at hrun
    split at hrun
    · rename_i hs
      cases hc : Storage.cref K c.m_storage with
      | error e => simp [hc, bind, Except.bind] at hrun
      | ok v =>
        simp only [hc, bind, Except.bind] at hrun
        split at hrun
        · cases hm : Option.ctor_move c with
          | error e => simp [hm] at hrun
          | ok pr =>
            obtain ⟨r2, c2⟩ := pr
            simp [hm, pure, Except.pure] at hrun
            obtain ⟨rfl, -, -⟩ := hrun
            have h2 := ctor_move_is_some c r2 c2 hm
            rw [hs] at h2
            rw [absent_iff, h2] at hr
            cases hr
        · simp [pure, Except.pure] at hrun
          exact hrun.2.1.symm
    · simp [pure, Except.pure] at hrun
      exact hrun.2.1.symm
  · intro r c1 hrun hr
    unfold Option.xor_ at hrun
    split at hrun
    · simp [pure, Except.pure] at hrun
      exact hrun.2.symm
    · split at hrun
      · rename_i hs
        have h2 := ctor_move_is_some c r c1 hrun
        rw [hs] at h2
        rw [absent_iff, h2] at hr
        cases hr
      · cases hm : Option.ctor_move b with
        | error e => simp [hm, bind, Except.bind] at hrun
        | ok pr =>
          obtain ⟨r2, c2⟩ := pr
          simp [hm, bind, Except.bind, pure, Except.pure] at hrun
          exact hrun.2.symm
  · intro v h hp
    obtain rfl := (present_iff c v).1 h
    exact ⟨Option.ctor, (p v env).2, by simp [Option.filter, is_some_some, cref_some, bind,
      Except.bind, hp, pure, Except.pure], ctor_absent⟩
  · intro h
    have hs := (absent_iff c).1 h
    exact ⟨Option.ctor, env, by simp [Option.filter, hs, pure, Except.pure], ctor_absent⟩
  · intro v w hc hb
    exact ⟨Option.ctor, by simp [Option.xor_, hc.1, hb.1, pure, Except.pure], ctor_absent⟩
  · intro hc hb
    have h1 := (absent_iff c).1 hc
    have h2 := (absent_iff b).1 hb
    exact ⟨Option.ctor, by simp [Option.xor_, h1, h2, pure, Except.pure], ctor_absent⟩

/-- Witness of C37: `Some(5).filter(p)` with `p` false and `Some(5).xor_(Some(4))` return an
Absent Option and leave the receiver `Some(5)`. -/
theorem empty_result_keeps_receiver_witness :
    ((Some 5 : Option .Owned Int).Present 5 ∧
      ∃ r e1, (Some 5 : Option .Owned Int).filter (fun _ (e : Unit) => (false, e)) () =
        .ok (r, Some 5, e1) ∧ r.Absent) ∧
    ((Some 5 : Option .Owned Int).Present 5 ∧ (Some 4 : Option .Owned Int).Present 4 ∧
      ∃ r, (Some 5 : Option .Owned Int).xor_ (Some 4) = .ok (r, Some 5) ∧ r.Absent) :=
  ⟨⟨some_present 5,
      (empty_result_keeps_receiver .Owned Int Unit (Some 5) (Some 4) (fun _ e => (false, e))
        ()).2.2.1 5 (some_present 5) rfl⟩,
    ⟨some_present 5, some_present 4,
      (empty_result_keeps_receiver .Owned Int Unit (Some 5) (Some 4) (fun _ e => (false, e))
        ()).2.2.2.2.1 5 4 (some_present 5) (some_present 4)⟩⟩

/-- C38. For every container of every kind and every predicate `p` that answers true and
does not write through its handle, `take_if(p)` returns the Option that `take()` returns and
leaves the container in the state `take()` leaves it in; both return on every Present or
Absent container. -/
theorem take_is_take_if_true (K : Kind) (T σ : Type) (c : Option K T)
    (p : FuncMut σ (Payload K T) Bool) (env : σ) (hp : ∀ v e, (p v e).1 = (true, v)) :
    (c.take_if p env).map (fun x => (x.1, x.2.1)) = c.take ∧
    (((∃ v, c.Present v) ∨ c.Absent) → ∃ r c1, c.take = .ok (r, c1)) := by
  constructor
  · rcases shape c with ⟨v, hv⟩ | ha | ⟨hs, e, he⟩
    · obtain rfl := (present_iff c v).1 hv
      have h1 := hp v env
      have h11 : (p v env).1.1 = true := by rw [h1]
      have h12 : (p v env).1.2 = v := by rw [h1]
      cases K <;>
        simp [Option.take_if, Option.take, is_some_some, ref_some, bind, Except.bind, h11, h12,
          Except.map] <;> rfl
    · have hs := (absent_iff c).1 ha
      simp [Option.take_if, Option.take, hs, pure, Except.pure, Except.map]
    · have hr : Storage.ref K c.m_storage = .error e := by
        cases K
        · obtain ⟨⟨st, bf⟩⟩ := c
          cases bf
          · cases he; rfl
          · cases he
        · obtain ⟨⟨q⟩⟩ := c
          cases q
          · cases hs
          · cases he
        · obtain ⟨⟨q⟩⟩ := c
          cases q
          · cases hs
          · cases he
      simp [Option.take_if, Option.take, hs, hr, he, bind, Except.bind, Except.map]
  · rintro (⟨v, hv⟩ | ha)
    · obtain rfl := (present_iff c v).1 hv
      exact ⟨Some v, Option.drained v, by cases K <;> rfl⟩
    · have hs := (absent_iff c).1 ha
      exact ⟨Option.ctor, c, by simp [Option.take, hs, pure, Except.pure]⟩

/-- Witness of C38 on `Option<int> a = Some(5)` with the predicate returning true. -/
theorem take_is_take_if_true_witness :
    (∀ (v : Int) (e : Unit), ((fun v e => ((true, v), e)) v e : (Bool × Int) × Unit).1 =
      (true, v)) ∧
    ((Some 5 : Option .Owned Int).take_if (fun v (e : Unit) => ((true, v), e)) ()).map
        (fun x => (x.1, x.2.1)) = (Some 5 : Option .Owned Int).take ∧
    ((((∃ v, (Some 5 : Option .Owned Int).Present v) ∨ (Some 5 : Option .Owned Int).Absent)) →
      ∃ r c1, (Some 5 : Option .Owned Int).take = .ok (r, c1)) :=
  ⟨fun _ _ => rfl,
    take_is_take_if_true .Owned Int Unit (Some 5) (fun v e => ((true, v), e)) ()
      (fun _ _ => rfl)⟩

/-- C39. For every container of every kind and every `x`, `replace(x)` returns the Option
that `take()` returns and leaves the container in the state that `take()` followed by
`insert(x)` leaves it in; on every Present or Absent container the call returns. -/
theorem replace_is_take_then_insert (K : Kind) (T : Type) (c : Option K T) (x : Payload K T) :
    c.replace x = c.take_then_insert x ∧
    (((∃ u, c.Present u) ∨ c.Absent) →
      ∃ r c1 c2, c.take = .ok (r, c1) ∧ c1.insert x = .ok (x, c2) ∧
        c.replace x = .ok (r, c2)) := by
  constructor
  · cases K
    · obtain ⟨⟨st, b⟩⟩ := c
      cases st <;> cases b <;> rfl
    · obtain ⟨⟨q⟩⟩ := c
      cases q <;> rfl
    · obtain ⟨⟨q⟩⟩ := c
      cases q <;> rfl
  · rintro (⟨u, hu⟩ | ha)
    · obtain rfl := (present_iff c u).1 hu
      exact ⟨Some u, Option.drained u, Some x, by cases K <;> rfl, by cases K <;> rfl,
        by cases K <;> rfl⟩
    · have hs := (absent_iff c).1 ha
      refine ⟨Option.ctor, c, Some x, by simp [Option.take, hs, pure, Except.pure],
        insert_eval c x (Or.inr ha), ?_⟩
      simp [Option.replace, ctor_move_absent c ha, insert_eval c x (Or.inr ha), bind,
        Except.bind, pure, Except.pure]

/-- Witness of C39 on `Option<int &> a = Some(value)` with `value` at address 7 and a
replacement at address 9. -/
theorem replace_is_take_then_insert_witness :
    ((∃ u, (Some 7 : Option .MutRef Int).Present u) ∨ (Some 7 : Option .MutRef Int).Absent) ∧
      ∃ r c1 c2, (Some 7 : Option .MutRef Int).take = .ok (r, c1) ∧ c1.insert 9 = .ok (9, c2) ∧
        (Some 7 : Option .MutRef Int).replace 9 = .ok (r, c2) :=
  ⟨Or.inl ⟨7, some_present (K := .MutRef) 7⟩,
    (replace_is_take_then_insert .MutRef Int (Some 7) 9).2
      (Or.inl ⟨7, some_present (K := .MutRef) 7⟩)⟩

/-- C40. The call `c.map(f).map(g)` returns the Option that `c.map(h)` returns, for
`h(v) = g(f(v))`: Present holding `g(f(v))` when `c` is Present holding `v`, Absent when `c`
is Absent; both leave `c` and the environment in the same state. -/
theorem map_composition (K J L : Kind) (T U V σ : Type) (c : Option K T)
    (f : Func σ (Payload K T) (Payload J U)) (g : Func σ (Payload J U) (Payload L V))
    (env : σ) :
    (∀ v, c.Present v →
      ∃ r1 c1 e1 r1a r2 e2, c.map f env = .ok (r1, c1, e1) ∧ r1.map g e1 = .ok (r2, r1a, e2) ∧
        c.map (composed f g) env = .ok (r2, c1, e2) ∧
        r2.Present (composed f g v env).1 ∧
        (composed f g v env).1 = (g (f v env).1 (f v env).2).1) ∧
    (c.Absent →
      ∃ r1 r1a r2, c.map f env = .ok (r1, c, env) ∧ r1.map g env = .ok (r2, r1a, env) ∧
        c.map (composed f g) env = .ok (r2, c, env) ∧ r2.Absent) := by
  constructor
  · intro v h
    obtain rfl := (present_iff c v).1 h
    refine ⟨Some (f v env).1, Option.drained v, (f v env).2, Option.drained (f v env).1,
      Some (composed f g v env).1, (composed f g v env).2, by cases K <;> rfl,
      by cases J <;> rfl, by cases K <;> rfl, some_present _, rfl⟩
  · intro h
    have hs := (absent_iff c).1 h
    have h2 : (Option.ctor : Option J U).is_some = false := by cases J <;> rfl
    exact ⟨Option.ctor, Option.ctor, Option.ctor,
      by simp [Option.map, hs, pure, Except.pure],
      by simp [Option.map, h2, pure, Except.pure],
      by simp [Option.map, hs, pure, Except.pure], ctor_absent⟩

/-- Witness of C40 on `Some(5)` with `f(v) = v + 1` and `g(u) = 2 * u`. -/
theorem map_composition_witness :
    (Some 5 : Option .Owned Int).Present 5 ∧
      ∃ r1 c1 e1 r1a r2 e2,
        (Some 5 : Option .Owned Int).map (J := .Owned) (U := Int)
          (fun v (e : Unit) => (v + 1, e)) () = .ok (r1, c1, e1) ∧
        r1.map (J := .Owned) (U := Int) (fun u (e : Unit) => (2 * u, e)) e1 =
          .ok (r2, r1a, e2) ∧
        (Some 5 : Option .Owned Int).map (J := .Owned) (U := Int)
          (composed (fun v (e : Unit) => ((v + 1 : Int), e)) (fun u e => ((2 * u : Int), e)))
          () = .ok (r2, c1, e2) ∧
        r2.Present (composed (fun v (e : Unit) => ((v + 1 : Int), e))
          (fun u e => ((2 * u : Int), e)) 5 ()).1 ∧
        (composed (fun v (e : Unit) => ((v + 1 : Int), e)) (fun u e => ((2 * u : Int), e))
          5 ()).1 = ((fun u (e : Unit) => ((2 * u : Int), e))
            ((fun v (e : Unit) => ((v + 1 : Int), e)) 5 ()).1
            ((fun v (e : Unit) => ((v + 1 : Int), e)) 5 ()).2).1 :=
  ⟨some_present 5,
    (map_composition .Owned .Owned .Owned Int Int Int Unit (Some 5) (fun v e => (v + 1, e))
      (fun u e => (2 * u, e)) ()).1 5 (some_present 5)⟩

/-! Exceptions thrown by the constructors of the payload. -/

/-- C34, as stated, fails: when the move construction of the replacement into the slot of the
receiver throws during `insert(5)` on `Some(4)`, the prior payload has been destroyed and the
receiver is left tagged `SOME` over bytes that hold no object: it is neither Absent nor
unchanged, its payload cannot be read, and its destructor would destroy the slot again. -/
theorem insert_throw_breaks_receiver_counterexample :
    (Some 4 : Option .Owned Int).Present 4 ∧
      (Some 4 : Option .Owned Int).insert_exn 5 1 = .ok (.thrown ⟨⟨.SOME, .raw⟩⟩) ∧
      ¬ (⟨⟨.SOME, .raw⟩⟩ : Option .Owned Int).Absent ∧
      (⟨⟨.SOME, .raw⟩⟩ : Option .Owned Int) ≠ Some 4 ∧
      Storage.cref .Owned (⟨.SOME, .raw⟩ : OptionStorage Int) = .error .no_object ∧
      OptionStorage.dtor (⟨.SOME, .raw⟩ : OptionStorage Int) = .error .no_object := by
  refine ⟨some_present 4, rfl, fun h => (by cases h), fun h => ?_, rfl, rfl⟩
  have h2 := congrArg (fun c : Option .Owned Int => c.m_storage.m_buff) h
  cases h2

/-- C34, amended. On an owned container, Present or Absent: if the throwing construction is
one that runs before the move assignment into the receiver (of the `T()` or the `T` returned
by `f()`, or of the temporary `Storage(..)`), the exception leaves the receiver of `insert`,
`get_or_insert`, `get_or_insert_default` and `get_or_insert_with` unchanged and the receiver
of `replace` Absent; on a Present receiver the three `get_or_insert` operations construct
nothing. If the move construction into the slot of the receiver throws, the receiver is left
tagged `SOME` over a slot without a live payload. When no construction throws, `insert_exn`
is `insert`. -/
theorem insert_family_throw_spec (T σ : Type) [Inhabited T] (c : Option .Owned T) (x : T)
    (t : Thunk σ T) (env : σ) (hc : (∃ u, c.Present u) ∨ c.Absent) :
    c.insert_exn x 0 = .ok (.thrown c) ∧
    (∀ n, c.insert_exn x (n + 2) = .ok (.done (x, Some x) n) ∧ c.insert x = .ok (x, Some x)) ∧
    (c.Absent →
      c.get_or_insert_exn x 0 = .ok (.thrown c) ∧
      c.get_or_insert_default_exn 0 = .ok (.thrown c) ∧
      c.get_or_insert_default_exn 1 = .ok (.thrown c) ∧
      c.get_or_insert_with_exn t env 0 = .ok (.thrown c) ∧
      c.get_or_insert_with_exn t env 1 = .ok (.thrown c) ∧
      c.replace_exn x 0 = .ok (.thrown c) ∧
      c.insert_exn x 1 = .ok (.thrown ⟨⟨.SOME, c.m_storage.m_buff⟩⟩)) ∧
    (∀ u, c.Present u →
      (∀ n, c.get_or_insert_exn x n = .ok (.done (u, c) n) ∧
        c.get_or_insert_default_exn n = .ok (.done (u, c) n) ∧
        c.get_or_insert_with_exn t env n = .ok (.done (u, c, env) n)) ∧
      (∃ c1, c.replace_exn x 1 = .ok (.thrown c1) ∧ c1.Absent) ∧
      c.insert_exn x 1 = .ok (.thrown ⟨⟨.SOME, .raw⟩⟩)) := by
  refine ⟨rfl, ?_, ?_, ?_⟩
  · intro n
    refine ⟨?_, insert_eval c x hc⟩
    rcases hc with ⟨u, hu⟩ | ha
    · obtain rfl := (present_iff c u).1 hu
      rfl
    · obtain ⟨⟨st, b⟩⟩ := c
      cases st
      · cases ha
      · rfl
  · intro ha
    obtain ⟨⟨st, b⟩⟩ := c
    cases st
    · cases ha
    · exact ⟨rfl, rfl, rfl, rfl, rfl, rfl, rfl⟩
  · intro u hu
    obtain rfl := (present_iff c u).1 hu
    exact ⟨fun n => ⟨rfl, rfl, rfl⟩, ⟨Option.drained u, rfl, rfl⟩, rfl⟩

/-- Witness of the amended C34 on `Option<int> a = Some(4)` and `insert(5)`. -/
theorem insert_family_throw_spec_witness :
    ((∃ u, (Some 4 : Option .Owned Int).Present u) ∨ (Some 4 : Option .Owned Int).Absent) ∧
      (Some 4 : Option .Owned Int).insert_exn 5 0 = .ok (.thrown (Some 4)) ∧
      (∀ n, (Some 4 : Option .Owned Int).insert_exn 5 (n + 2) = .ok (.done (5, Some 5) n) ∧
        (Some 4 : Option .Owned Int).insert 5 = .ok (5, Some 5)) :=
  ⟨Or.inl ⟨4, some_present 4⟩,
    (insert_family_throw_spec Int Unit (Some 4) 5 (fun e => (0, e)) ()
      (Or.inl ⟨4, some_present 4⟩)).1,
    (insert_family_throw_spec Int Unit (Some 4) 5 (fun e => (0, e)) ()
      (Or.inl ⟨4, some_present 4⟩)).2.1⟩

/-! The lifecycle of the owned slot. -/

theorem tagged_live_set {p : Pool} (h : p.TaggedLive) (i : Nat) (s : Slot)
    (hs : s.m_state = .SOME → s.live = true) : (p.set i (.object s)).TaggedLive := by
  intro k s2 hk h2
  unfold Pool.set at hk
  split at hk
  · cases hk; exact hs h2
  · exact h k s2 hk h2

theorem tagged_live_set_gone {p : Pool} (h : p.TaggedLive) (i : Nat) :
    (p.set i .gone).TaggedLive := by
  intro k s2 hk h2
  unfold Pool.set at hk
  split at hk
  · cases hk
  · exact h k s2 hk h2

theorem step_tagged_live (op : StorageOp) (w : Pool × Ledger) (h : w.1.TaggedLive) :
    (op.step w).1.TaggedLive ∧ (op.step w).2.destroyed_dead = w.2.destroyed_dead := by
  obtain ⟨p, l⟩ := w
  cases op with
  | default_ctor i =>
    simp only [StorageOp.step]
    split
    · exact ⟨tagged_live_set h i _ (fun hh => by cases hh), rfl⟩
    · exact ⟨h, rfl⟩
  | value_ctor i =>
    simp only [StorageOp.step]
    split
    · exact ⟨tagged_live_set h i _ (fun _ => rfl), by simp [Slot.ctor_value, Slot.build]⟩
    · exact ⟨h, rfl⟩
  | copy_ctor i j =>
    simp only [StorageOp.step]
    split
    · refine ⟨tagged_live_set h i _ (fun _ => rfl), ?_⟩
      simp only [Slot.ctor_copy, Slot.build]
      split <;> rfl
    · exact ⟨h, rfl⟩
  | move_ctor i j =>
    simp only [StorageOp.step]
    split
    · rename_i o hi hj
      obtain ⟨st, lv⟩ := o
      cases st <;>
        exact ⟨tagged_live_set (tagged_live_set h j _ (fun hh => by cases hh)) i _
          (fun hh => by first | rfl | cases hh), rfl⟩
    · exact ⟨h, rfl⟩
  | copy_assign i j =>
    simp only [StorageOp.step]
    split
    · rename_i s o hi hj
      split
      · exact ⟨h, rfl⟩
      · have hl := h i s hi
        obtain ⟨st, lv⟩ := s
        obtain ⟨ost, olv⟩ := o
        cases st <;> cases ost <;> cases lv <;>
          first
          | exact absurd (hl rfl) (by decide)
          | exact ⟨tagged_live_set h i _ (fun hh => by first | rfl | cases hh), rfl⟩
    · exact ⟨h, rfl⟩
  | move_assign i j =>
    simp only [StorageOp.step]
    split
    · rename_i s o hi hj
      split
      · exact ⟨h, rfl⟩
      · have hl := h i s hi
        obtain ⟨st, lv⟩ := s
        obtain ⟨ost, olv⟩ := o
        cases st <;> cases ost <;> cases lv <;>
          first
          | exact absurd (hl rfl) (by decide)
          | exact ⟨tagged_live_set (tagged_live_set h j _ (fun hh => by cases hh)) i _
              (fun hh => by first | rfl | cases hh), rfl⟩
    · exact ⟨h, rfl⟩
  | get i =>
    simp only [StorageOp.step]
    split
    · exact ⟨tagged_live_set h i _ (fun hh => by cases hh), rfl⟩
    · exact ⟨h, rfl⟩
  | dtor i =>
    simp only [StorageOp.step]
    split
    · rename_i s hi
      have hl := h i s hi
      obtain ⟨st, lv⟩ := s
      cases st <;> cases lv <;>
        first
        | exact absurd (hl rfl) (by decide)
        | exact ⟨tagged_live_set_gone h i, rfl⟩
    · exact ⟨h, rfl⟩

/-- In every sequence of owned storage operations on storages whose tag `SOME` stands over a
live payload, no destructor call reaches a slot without a live payload: a payload is never
destroyed twice, and the tag `SOME` keeps standing over a live payload. -/
theorem run_never_destroys_dead (ops : List StorageOp) (w : Pool × Ledger)
    (h : w.1.TaggedLive) :
    (run ops w).1.TaggedLive ∧ (run ops w).2.destroyed_dead = w.2.destroyed_dead := by
  induction ops generalizing w with
  | nil => exact ⟨h, rfl⟩
  | cons op ops ih =>
    have h1 := step_tagged_live op w h
    have h2 := ih (op.step w) h1.1
    exact ⟨h2.1, h2.2.trans h1.2⟩

theorem live_iff_set {p : Pool} (h : p.LiveIffTagged) (i : Nat) (s : Slot)
    (hs : s.live = s.is_some) : (p.set i (.object s)).LiveIffTagged := by
  intro k s2 hk
  unfold Pool.set at hk
  split at hk
  · cases hk; exact hs
  · exact h k s2 hk

theorem live_iff_set_gone {p : Pool} (h : p.LiveIffTagged) (i : Nat) :
    (p.set i .gone).LiveIffTagged := by
  intro k s2 hk
  unfold Pool.set at hk
  split at hk
  · cases hk
  · exact h k s2 hk

theorem step_live_iff (op : StorageOp) (w : Pool × Ledger) (h : w.1.LiveIffTagged)
    (hop : op.no_copy_ctor = true) :
    (op.step w).1.LiveIffTagged ∧ (op.step w).2 = w.2 := by
  obtain ⟨p, l⟩ := w
  cases op with
  | default_ctor i =>
    simp only [StorageOp.step]
    split
    · exact ⟨live_iff_set h i _ rfl, rfl⟩
    · exact ⟨h, rfl⟩
  | value_ctor i =>
    simp only [StorageOp.step]
    split
    · exact ⟨live_iff_set h i _ rfl, rfl⟩
    · exact ⟨h, rfl⟩
  | copy_ctor i j => cases hop
  | move_ctor i j =>
    simp only [StorageOp.step]
    split
    · rename_i o hi hj
      have hlj := h j o hj
      obtain ⟨st, lv⟩ := o
      cases st <;> cases lv <;>
        first
        | exact absurd hlj (by decide)
        | exact ⟨live_iff_set (live_iff_set h j _ rfl) i _ rfl, rfl⟩
    · exact ⟨h, rfl⟩
  | copy_assign i j =>
    simp only [StorageOp.step]
    split
    · rename_i s o hi hj
      split
      · exact ⟨h, rfl⟩
      · have hl := h i s hi
        obtain ⟨st, lv⟩ := s
        obtain ⟨ost, olv⟩ := o
        cases st <;> cases ost <;> cases lv <;>
          first
          | exact absurd hl (by decide)
          | exact ⟨live_iff_set h i _ rfl, rfl⟩
    · exact ⟨h, rfl⟩
  | move_assign i j =>
    simp only [StorageOp.step]
    split
    · rename_i s o hi hj
      split
      · exact ⟨h, rfl⟩
      · have hl := h i s hi
        have hlj := h j o hj
        obtain ⟨st, lv⟩ := s
        obtain ⟨ost, olv⟩ := o
        cases st <;> cases ost <;> cases lv <;> cases olv <;>
          first
          | exact absurd hl (by decide)
          | exact absurd hlj (by decide)
          | exact ⟨live_iff_set (live_iff_set h j _ rfl) i _ rfl, rfl⟩
    · exact ⟨h, rfl⟩
  | get i =>
    simp only [StorageOp.step]
    split
    · exact ⟨live_iff_set h i _ rfl, rfl⟩
    · exact ⟨h, rfl⟩
  | dtor i =>
    simp only [StorageOp.step]
    split
    · rename_i s hi
      have hl := h i s hi
      obtain ⟨st, lv⟩ := s
      cases st <;> cases lv <;>
        first
        | exact absurd hl (by decide)
        | exact ⟨live_iff_set_gone h i, rfl⟩
    · exact ⟨h, rfl⟩

/-- A sequence of owned storage operations without a copy construction performs none of the
forbidden events: a payload is alive exactly under the tag `SOME`, no `T` is constructed over
a live payload and no payload is destroyed twice. -/
theorem run_clean_without_copy_ctor (ops : List StorageOp) (w : Pool × Ledger)
    (h : w.1.LiveIffTagged) (hops : ∀ op ∈ ops, op.no_copy_ctor = true) :
    (run ops w).1.LiveIffTagged ∧ (run ops w).2 = w.2 := by
  induction ops generalizing w with
  | nil => exact ⟨h, rfl⟩
  | cons op ops ih =>
    have h1 := step_live_iff op w h (hops op (List.mem_cons_self _ _))
    have h2 := ih (op.step w) h1.1 (fun o ho => hops o (List.mem_cons_of_mem _ ho))
    exact ⟨h2.1, h2.2.trans h1.2⟩

/-- C35 at its failing input. After `a = Some(5)`, `a.get()` (as in `a.take()`),
`b` copy-constructed from `a`, and `b = Storage(7)`: the copy constructor has constructed a
`T` in the slot of `b` under the tag `NONE`, and the move assignment, which tests the tag,
constructs the new `T` over it without destroying it. -/
theorem lifecycle_copy_then_assign_builds_over_live :
    (run [.value_ctor 0, .get 0, .copy_ctor 1 0] (fun _ => .gone, ⟨0, 0⟩)).1 1 =
        .object ⟨.NONE, true⟩ ∧
      (run [.value_ctor 0, .get 0, .copy_ctor 1 0, .value_ctor 2, .move_assign 1 2]
        (fun _ => .gone, ⟨0, 0⟩)).2 = ⟨1, 0⟩ ∧
      (run [.value_ctor 0, .get 0, .value_ctor 1, .copy_assign 1 0, .value_ctor 2,
        .move_assign 1 2] (fun _ => .gone, ⟨0, 0⟩)).2 = ⟨0, 0⟩ :=
  ⟨rfl, rfl, rfl⟩

end option
